import Mathlib

/-!
Max-profit solver: ingestion, range validation, model building and solution analysis

A shallow embedding of `src/max-profit-solver` (`input.cpp`, `solver.cpp`,
`profit_maximizer.cpp`).

Modelling conventions.

* A C++ `double` is an exact rational (`ℚ`): comparisons, sums and products are
  the mathematical ones, with no rounding, infinities or NaN.  A division by a
  zero rank therefore has no meaning in the model; statements about weights
  take a non-zero rank.
* `std::unordered_map<std::string, Product>` is the list of its values in the
  map's iteration order.  The key of a product is its `name`
  (`products[currentProduct.name] = currentProduct`), so keys are distinct
  exactly when the names in the list are.
* The text of a diagnostic is a constructor of `Message` carrying the values
  the source formats into the string.
* The character read from `std::cin` is an argument of `validateInput`; the
  field `prompted` records whether the read took place.
* `ClpSimplex` is a record of what the source stores in it; `primal` is an
  argument of `solve`.
-/

namespace MaxProfit

/-! ## Data model (`input.h`) -/

/-- Product-specific constraints (`struct Product`). -/
structure Product where
  name : String
  costMin : ℚ
  costMax : ℚ
  profitMin : ℚ
  profitMax : ℚ
  demandMin : ℚ
  demandMax : ℚ
  budgetMin : ℚ
  budgetMax : ℚ
  manHourPerUnitMin : ℚ
  manHourPerUnitMax : ℚ
  totalManHoursMin : ℚ
  totalManHoursMax : ℚ
  deriving DecidableEq

/-- Global constraints (`struct GlobalConstraints`). -/
structure GlobalConstraints where
  budgetMin : ℚ
  budgetMax : ℚ
  profitMin : ℚ
  profitMax : ℚ
  manHoursMin : ℚ
  manHoursMax : ℚ
  deriving DecidableEq

/-- Objectives (`struct Objective`): `type` is "maximize" or "minimize",
`rank` the ranking priority. -/
structure Objective where
  name : String
  type : String
  rank : Int
  deriving DecidableEq

/-! ## Range validation (`input.cpp`, `validateInput`) -/

/-- The diagnostics `validateInput` builds, one constructor per string literal
of the source, with the values that are formatted into the text. -/
inductive Message where
  /-- "Product: n - Budget range [a, b] is outside the realistic range [c, d]." -/
  | budgetOutside (name : String) (budgetMin budgetMax minBudget maxBudget : ℚ)
  /-- "Product: n - Budget range [a, b] is narrower than the realistic range [c, d]." -/
  | budgetNarrower (name : String) (budgetMin budgetMax minBudget maxBudget : ℚ)
  /-- "Product: n - Total man-hours range is below the realistic minimum. Suggested max: m." -/
  | manHoursBelow (name : String) (maxManHours : ℚ)
  /-- "Product: n - Total man-hours range exceeds the realistic maximum. Suggested max: m." -/
  | manHoursExceeds (name : String) (maxManHours : ℚ)
  /-- "Global budget range [a, b] is outside the realistic range [c, d]." -/
  | globalBudgetOutside (budgetMin budgetMax totalMinBudget totalMaxBudget : ℚ)
  /-- "Global budget range [a, b] is narrower than the realistic range [c, d]." -/
  | globalBudgetNarrower (budgetMin budgetMax totalMinBudget totalMaxBudget : ℚ)
  deriving DecidableEq

/-- The two vectors `criticalErrors` and `warnings` of `validateInput`. -/
structure Diagnostics where
  criticalErrors : List Message
  warnings : List Message
  deriving DecidableEq

/-- Body of the first loop of `validateInput`, for one product: the budget
`if / else if`, then the man-hours `if / else if`. -/
def validateProduct (d : Diagnostics) (product : Product) : Diagnostics :=
  let minBudget := product.costMin * product.demandMin
  let maxBudget := product.costMax * product.demandMax
  let d1 : Diagnostics :=
    if product.budgetMin < minBudget ∨ product.budgetMax > maxBudget then
      { d with criticalErrors := d.criticalErrors ++
          [Message.budgetOutside product.name product.budgetMin product.budgetMax
            minBudget maxBudget] }
    else if product.budgetMin > minBudget ∨ product.budgetMax < maxBudget then
      { d with warnings := d.warnings ++
          [Message.budgetNarrower product.name product.budgetMin product.budgetMax
            minBudget maxBudget] }
    else d
  let minManHours := product.manHourPerUnitMin * product.demandMin
  let maxManHours := product.manHourPerUnitMax * product.demandMax
  if product.totalManHoursMax > 0 ∧ product.totalManHoursMax < minManHours then
    { d1 with criticalErrors := d1.criticalErrors ++
        [Message.manHoursBelow product.name maxManHours] }
  else if product.totalManHoursMax > maxManHours then
    { d1 with warnings := d1.warnings ++
        [Message.manHoursExceeds product.name maxManHours] }
  else d1

/-- Body of the second loop of `validateInput`: the running pair
`(totalMinBudget, totalMaxBudget)`. -/
def accumulateBudget (totals : ℚ × ℚ) (product : Product) : ℚ × ℚ :=
  (totals.1 + product.costMin * product.demandMin,
   totals.2 + product.costMax * product.demandMax)

/-- The global budget `if / else if` of `validateInput`. -/
def validateGlobal (d : Diagnostics) (globalConstraints : GlobalConstraints)
    (totalMinBudget totalMaxBudget : ℚ) : Diagnostics :=
  if globalConstraints.budgetMin < totalMinBudget ∨
      globalConstraints.budgetMax > totalMaxBudget then
    { d with criticalErrors := d.criticalErrors ++
        [Message.globalBudgetOutside globalConstraints.budgetMin
          globalConstraints.budgetMax totalMinBudget totalMaxBudget] }
  else if globalConstraints.budgetMin > totalMinBudget ∨
      globalConstraints.budgetMax < totalMaxBudget then
    { d with warnings := d.warnings ++
        [Message.globalBudgetNarrower globalConstraints.budgetMin
          globalConstraints.budgetMax totalMinBudget totalMaxBudget] }
  else d

/-- The diagnostics collected by `validateInput` before it decides: both loops
over the products and the global check. -/
def collectDiagnostics (products : List Product)
    (globalConstraints : GlobalConstraints) : Diagnostics :=
  let d := products.foldl validateProduct ⟨[], []⟩
  let totals := products.foldl accumulateBudget (0, 0)
  validateGlobal d globalConstraints totals.1 totals.2

/-- What a call of `validateInput` yields: the collected lists, whether the
confirmation was read from the console, and the returned boolean. -/
structure ValidationOutcome where
  criticalErrors : List Message
  warnings : List Message
  prompted : Bool
  result : Bool
  deriving DecidableEq

/-- The function `validateInput`; `choice` is the character `std::cin >> choice`
delivers when the read is reached. -/
def validateInput (products : List Product) (globalConstraints : GlobalConstraints)
    (_objectives : List Objective) (choice : Char) : ValidationOutcome :=
  let d := collectDiagnostics products globalConstraints
  if ¬ d.criticalErrors.isEmpty then
    ⟨d.criticalErrors, d.warnings, false, false⟩
  else if ¬ d.warnings.isEmpty then
    if choice ≠ 'y' ∧ choice ≠ 'Y' then
      ⟨d.criticalErrors, d.warnings, true, false⟩
    else
      ⟨d.criticalErrors, d.warnings, true, true⟩
  else
    ⟨d.criticalErrors, d.warnings, false, true⟩

/-! ## The solver collaborator as the source uses it (`ClpSimplex`) -/

/-- The value of `COIN_DBL_MAX`, the largest finite `double`: the upper bound
`ClpSimplex` gives a column that `resize` creates. -/
def COIN_DBL_MAX : ℚ := (2 ^ 53 - 1) * 2 ^ 971

/-- One constraint row as passed to `addRow`: the column indices, the
coefficients on them, and the row bounds. -/
structure Row where
  columns : List Nat
  elements : List ℚ
  rowLower : ℚ
  rowUpper : ℚ
  deriving DecidableEq

/-- The part of a `ClpSimplex` object the source writes and reads. -/
structure ClpSimplex where
  columnLower : List ℚ
  columnUpper : List ℚ
  objective : List ℚ
  rows : List Row
  optimizationDirection : ℚ
  columnActivity : List ℚ
  deriving DecidableEq

namespace ClpSimplex

/-- A default-constructed model: no rows, no columns, direction 1. -/
def empty : ClpSimplex := ⟨[], [], [], [], 1, []⟩

/-- The call `resize(0, numberColumns)` on a model: no rows, and columns with
bounds `[0, COIN_DBL_MAX]`, cost 0 and activity 0. -/
def resize (m : ClpSimplex) (numberColumns : Nat) : ClpSimplex :=
  { m with
    columnLower := m.columnLower.take numberColumns ++
      List.replicate (numberColumns - m.columnLower.length) 0
    columnUpper := m.columnUpper.take numberColumns ++
      List.replicate (numberColumns - m.columnUpper.length) COIN_DBL_MAX
    objective := m.objective.take numberColumns ++
      List.replicate (numberColumns - m.objective.length) 0
    rows := []
    columnActivity := m.columnActivity.take numberColumns ++
      List.replicate (numberColumns - m.columnActivity.length) 0 }

/-- The call `setColumnLower(index, value)`. -/
def setColumnLower (m : ClpSimplex) (index : Nat) (value : ℚ) : ClpSimplex :=
  { m with columnLower := m.columnLower.set index value }

/-- The call `setColumnUpper(index, value)`. -/
def setColumnUpper (m : ClpSimplex) (index : Nat) (value : ℚ) : ClpSimplex :=
  { m with columnUpper := m.columnUpper.set index value }

/-- The call `addRow(number, columns, elements, rowLower, rowUpper)`: the first
`number` entries of the two arrays make the new last row. -/
def addRow (m : ClpSimplex) (number : Nat) (columns : List Nat) (elements : List ℚ)
    (rowLower rowUpper : ℚ) : ClpSimplex :=
  { m with rows := m.rows ++
      [⟨columns.take number, elements.take number, rowLower, rowUpper⟩] }

/-- The call `setObjectiveCoefficient(index, value)`. -/
def setObjectiveCoefficient (m : ClpSimplex) (index : Nat) (value : ℚ) : ClpSimplex :=
  { m with objective := m.objective.set index value }

/-- The call `setOptimizationDirection(value)`. -/
def setOptimizationDirection (m : ClpSimplex) (value : ℚ) : ClpSimplex :=
  { m with optimizationDirection := value }

/-- The call `getColSolution()`. -/
def getColSolution (m : ClpSimplex) : List ℚ := m.columnActivity

end ClpSimplex

/-- The sense of optimisation a direction value denotes. -/
inductive Sense where
  | maximize
  | minimize
  | ignore
  deriving DecidableEq

/-- The convention of `ClpSimplex` for `setOptimizationDirection`, as its
header documents it: -1 maximize, 1 minimize, 0 ignore.  Any other value is
outside the convention. -/
def clpSense (direction : ℚ) : Option Sense :=
  if direction = -1 then some Sense.maximize
  else if direction = 1 then some Sense.minimize
  else if direction = 0 then some Sense.ignore
  else none

/-! ## Model building (`solver.cpp`) -/

/-- The data members of `class Solver`. -/
structure Solver where
  products : List Product
  globalConstraints : GlobalConstraints
  objectives : List Objective
  model : ClpSimplex
  objectiveCoefficients : List ℚ
  lowerBounds : List ℚ
  upperBounds : List ℚ
  avgCosts : List ℚ
  avgManHours : List ℚ
  deriving DecidableEq

/-- The constructor `Solver::Solver`: the three inputs, a default model and
empty vectors. -/
def Solver.new (products : List Product) (globalConstraints : GlobalConstraints)
    (objectives : List Objective) : Solver :=
  ⟨products, globalConstraints, objectives, ClpSimplex.empty, [], [], [], [], []⟩

/-- The call `v.resize(n, value)` on a `std::vector<double>`. -/
def vectorResize (v : List ℚ) (n : Nat) (value : ℚ) : List ℚ :=
  v.take n ++ List.replicate (n - v.length) value

/-- Body of the loop of `Solver::setupModel` for one product, on the solver
and the running `index`. -/
def setupModelStep (state : Solver × Nat) (product : Product) : Solver × Nat :=
  let s := state.1
  let index := state.2
  let avgCosts := s.avgCosts.set index ((product.costMin + product.costMax) / 2)
  let avgProfit := (product.profitMin + product.profitMax) / 200
  let avgManHours :=
    s.avgManHours.set index ((product.manHourPerUnitMin + product.manHourPerUnitMax) / 2)
  let objectiveCoefficients :=
    s.objectiveCoefficients.set index (avgCosts.getD index 0 * avgProfit)
  let lowerBounds := s.lowerBounds.set index product.demandMin
  let upperBounds := s.upperBounds.set index product.demandMax
  let model := (s.model.setColumnLower index (lowerBounds.getD index 0)).setColumnUpper
    index (upperBounds.getD index 0)
  ({ s with
      model := model
      objectiveCoefficients := objectiveCoefficients
      lowerBounds := lowerBounds
      upperBounds := upperBounds
      avgCosts := avgCosts
      avgManHours := avgManHours },
   index + 1)

/-- The method `Solver::setupModel`. -/
def setupModel (s : Solver) : Solver :=
  let numProducts := s.products.length
  let s1 : Solver :=
    { s with
      model := s.model.resize numProducts
      objectiveCoefficients := vectorResize s.objectiveCoefficients numProducts 0
      lowerBounds := vectorResize s.lowerBounds numProducts 0
      upperBounds := vectorResize s.upperBounds numProducts 0
      avgCosts := vectorResize s.avgCosts numProducts 0
      avgManHours := vectorResize s.avgManHours numProducts 0 }
  (s1.products.foldl setupModelStep (s1, 0)).1

/-- Body of the loop of `Solver::applyConstraints` for one product: the budget
row and the labor row on column `index`. -/
def applyConstraintsStep (state : Solver × Nat) (product : Product) : Solver × Nat :=
  let s := state.1
  let index := state.2
  let avgCost := s.avgCosts.getD index 0
  let avgManHour := s.avgManHours.getD index 0
  let columnIndex := index
  let model := (s.model.addRow 1 [columnIndex] [avgCost] product.budgetMin
    product.budgetMax).addRow 1 [columnIndex] [avgManHour] 0 product.totalManHoursMax
  ({ s with model := model }, index + 1)

/-- The method `Solver::applyConstraints`. -/
def applyConstraints (s : Solver) : Solver :=
  let s1 := (s.products.foldl applyConstraintsStep (s, 0)).1
  let indices := List.range s1.products.length
  let model := (s1.model.addRow indices.length indices s1.avgCosts
    s1.globalConstraints.budgetMin s1.globalConstraints.budgetMax).addRow
    indices.length indices s1.avgManHours 0 s1.globalConstraints.manHoursMax
  { s1 with model := model }

/-- The three local weights of `Solver::defineObjectiveFunction`. -/
structure Weights where
  weightProfit : ℚ
  weightResource : ℚ
  weightBudget : ℚ
  deriving DecidableEq

/-- Body of the objectives loop of `Solver::defineObjectiveFunction`. -/
def weightStep (w : Weights) (objective : Objective) : Weights :=
  if objective.name = "profit" ∧ objective.type = "maximize" then
    { w with weightProfit := 1 / (objective.rank : ℚ) }
  else if objective.name = "resource_usage" ∧ objective.type = "minimize" then
    { w with weightResource := 1 / (objective.rank : ℚ) }
  else if objective.name = "budget_usage" ∧ objective.type = "maximize" then
    { w with weightBudget := 1 / (objective.rank : ℚ) }
  else w

/-- The weights after the objectives loop, starting from 0, 0, 0. -/
def computeWeights (objectives : List Objective) : Weights :=
  objectives.foldl weightStep ⟨0, 0, 0⟩

/-- The method `Solver::defineObjectiveFunction`. -/
def defineObjectiveFunction (s : Solver) : Solver :=
  let w := computeWeights s.objectives
  let model := (List.range s.objectiveCoefficients.length).foldl
    (fun (m : ClpSimplex) (i : Nat) =>
      m.setObjectiveCoefficient i
        (w.weightProfit * s.objectiveCoefficients.getD i 0 -
          w.weightResource * s.avgManHours.getD i 0 +
          w.weightBudget * s.avgCosts.getD i 0))
    s.model
  { s with model := model.setOptimizationDirection 1 }

/-! ## Reporting, solution validation and sensitivity (`solver.cpp`) -/

/-- One line of the table `Solver::displayResults` prints for a product. -/
structure ResultLine where
  name : String
  costPicked : ℚ
  profitPercent : ℚ
  profitValue : ℚ
  unitsProduced : ℚ
  manHoursUsed : ℚ
  budgetUsed : ℚ
  deriving DecidableEq

/-- The loop state of `Solver::displayResults`: the running index and totals,
and the lines printed so far. -/
structure DisplayState where
  index : Nat
  totalProfit : ℚ
  totalBudgetUsed : ℚ
  totalManHoursUsed : ℚ
  lines : List ResultLine
  deriving DecidableEq

/-- Body of the loop of `Solver::displayResults` for one product. -/
def displayResultsStep (s : Solver) (solution : List ℚ) (st : DisplayState)
    (product : Product) : DisplayState :=
  let costPicked := s.avgCosts.getD st.index 0
  let profitPercent := (product.profitMin + product.profitMax) / 2
  let unitsProduced := solution.getD st.index 0
  let manHoursUsed := unitsProduced * s.avgManHours.getD st.index 0
  let budgetUsed := unitsProduced * costPicked
  let profitValue := unitsProduced * costPicked * (profitPercent / 100)
  { index := st.index + 1
    totalProfit := st.totalProfit + profitValue
    totalBudgetUsed := st.totalBudgetUsed + budgetUsed
    totalManHoursUsed := st.totalManHoursUsed + manHoursUsed
    lines := st.lines ++
      [⟨product.name, costPicked, profitPercent, profitValue, unitsProduced,
        manHoursUsed, budgetUsed⟩] }

/-- What `Solver::displayResults` prints: the product lines and the totals
line. -/
structure ResultsTable where
  lines : List ResultLine
  overallProfitPercent : ℚ
  totalProfit : ℚ
  totalManHoursUsed : ℚ
  totalBudgetUsed : ℚ
  deriving DecidableEq

/-- The method `Solver::displayResults`. -/
def displayResults (s : Solver) : ResultsTable :=
  let solution := s.model.getColSolution
  let st := s.products.foldl (displayResultsStep s solution) ⟨0, 0, 0, 0, []⟩
  let overallProfitPercent := (st.totalProfit / st.totalBudgetUsed) * 100
  ⟨st.lines, overallProfitPercent, st.totalProfit, st.totalManHoursUsed,
    st.totalBudgetUsed⟩

/-- The violations `Solver::validateSolution` reports, one constructor per
message of the source. -/
inductive Violation where
  /-- "Budget constraint violated for product: n" -/
  | budget (name : String)
  /-- "Man-hours constraint violated for product: n" -/
  | manHours (name : String)
  /-- "Global budget constraint violated." -/
  | globalBudget
  /-- "Global man-hours constraint violated." -/
  | globalManHours
  deriving DecidableEq

/-- The loop state of `Solver::validateSolution`. -/
structure CheckState where
  index : Nat
  totalBudgetUsed : ℚ
  totalManHoursUsed : ℚ
  reported : List Violation
  deriving DecidableEq

/-- Body of the loop of `Solver::validateSolution` for one product. -/
def validateSolutionStep (s : Solver) (solution : List ℚ) (st : CheckState)
    (product : Product) : CheckState :=
  let costPicked := s.avgCosts.getD st.index 0
  let unitsProduced := solution.getD st.index 0
  let manHoursUsed := unitsProduced * s.avgManHours.getD st.index 0
  let budgetUsed := unitsProduced * costPicked
  let r1 :=
    if budgetUsed < product.budgetMin ∨ budgetUsed > product.budgetMax then
      st.reported ++ [Violation.budget product.name]
    else st.reported
  let r2 :=
    if manHoursUsed > product.totalManHoursMax then
      r1 ++ [Violation.manHours product.name]
    else r1
  { index := st.index + 1
    totalBudgetUsed := st.totalBudgetUsed + budgetUsed
    totalManHoursUsed := st.totalManHoursUsed + manHoursUsed
    reported := r2 }

/-- The method `Solver::validateSolution`: the violations written to the error
stream, in order. -/
def validateSolution (s : Solver) : List Violation :=
  let solution := s.model.getColSolution
  let st := s.products.foldl (validateSolutionStep s solution) ⟨0, 0, 0, []⟩
  let r1 :=
    if st.totalBudgetUsed > s.globalConstraints.budgetMax then
      st.reported ++ [Violation.globalBudget]
    else st.reported
  if st.totalManHoursUsed > s.globalConstraints.manHoursMax then
    r1 ++ [Violation.globalManHours]
  else r1

/-- Body of the inner loop of `Solver::performSensitivityAnalysis` for one
product at one `delta`: the running index and the lines printed. -/
def sensitivityStep (s : Solver) (delta : ℚ) (st : Nat × List (String × ℚ))
    (product : Product) : Nat × List (String × ℚ) :=
  let index := st.1
  let adjustedProfitPercent :=
    ((product.profitMin + product.profitMax) / 2) * (1 + delta / 100)
  let costPicked := s.avgCosts.getD index 0
  let unitsProduced := s.model.getColSolution.getD index 0
  let profitValue := unitsProduced * costPicked * (adjustedProfitPercent / 100)
  (index + 1, st.2 ++ [(product.name, profitValue)])

/-- The outer loop `for (delta = -10; delta <= 10; delta += 5)` of
`Solver::performSensitivityAnalysis`, by recursion on a bound for the number of
iterations left. -/
def sensitivityLoop (s : Solver) :
    Nat → ℚ → List (ℚ × List (String × ℚ)) → List (ℚ × List (String × ℚ))
  | 0, _, out => out
  | fuel + 1, delta, out =>
    if delta ≤ 10 then
      if delta = 0 then sensitivityLoop s fuel (delta + 5) out
      else
        sensitivityLoop s fuel (delta + 5)
          (out ++ [(delta, (s.products.foldl (sensitivityStep s delta) (0, [])).2)])
    else out

/-- The method `Solver::performSensitivityAnalysis`: for each delta printed, the
adjusted profit value of every product.  The loop variable takes five values,
so the bound 8 is never reached. -/
def performSensitivityAnalysis (s : Solver) : List (ℚ × List (String × ℚ)) :=
  sensitivityLoop s 8 (-10) []

/-- Everything a call of `Solver::solve` produces. -/
structure SolveOutput where
  solver : Solver
  results : ResultsTable
  violations : List Violation
  sensitivity : List (ℚ × List (String × ℚ))
  deriving DecidableEq

/-- The method `Solver::solve`.  The argument `primal` stands for
`model.primal()`: from the built model it gives the status the call returns
and the column solution it leaves in the model.  The source drops the
status. -/
def solve (s : Solver) (primal : ClpSimplex → Int × List ℚ) : SolveOutput :=
  let s1 := setupModel s
  let s2 := applyConstraints s1
  let s3 := defineObjectiveFunction s2
  let s4 : Solver := { s3 with model := { s3.model with columnActivity := (primal s3.model).2 } }
  ⟨s4, displayResults s4, validateSolution s4, performSensitivityAnalysis s4⟩

/-! ## The program (`profit_maximizer.cpp`) -/

/-- What a run of `main` yields: the exit status, the outcome of
`validateInput` when it was called, and the output of `solve` when a `Solver`
was constructed and run. -/
structure ProgramRun where
  exitStatus : Int
  validation : Option ValidationOutcome
  solved : Option SolveOutput
  deriving DecidableEq

/-- The function `main`.  The argument `parsed` is what `parseInputConfig`
gives: the message of the exception it throws, or the products, the global
constraints and the objectives. -/
def main (parsed : Except String (List Product × GlobalConstraints × List Objective))
    (choice : Char) (primal : ClpSimplex → Int × List ℚ) : ProgramRun :=
  match parsed with
  | Except.error _ => ⟨1, none, none⟩
  | Except.ok (products, globalConstraints, objectives) =>
    let v := validateInput products globalConstraints objectives choice
    if ¬ v.result then ⟨1, some v, none⟩
    else
      ⟨0, some v, some (solve (Solver.new products globalConstraints objectives) primal)⟩

/-! ## The Widget scenario -/

/-- The product of the scenario: cost [10,12], profit [20,30], demand [100,200],
budget [1000,2400], man-hours per unit [1,2], total man-hours [0,400]. -/
def widget : Product :=
  ⟨"Widget", 10, 12, 20, 30, 100, 200, 1000, 2400, 1, 2, 0, 400⟩

/-- The global constraints of the scenario: budget [1000,2400], man-hours
[0,400]; the profit range is not given and taken as [0,0]. -/
def widgetGlobal : GlobalConstraints := ⟨1000, 2400, 0, 0, 0, 400⟩

/-- Global constraints with a budget [1500,2400] narrower than the realistic
total of the Widget product. -/
def tightGlobal : GlobalConstraints := ⟨1500, 2400, 0, 0, 0, 400⟩

/-- The global constraints of the infeasible scenario: budget [5000,6000]. -/
def infeasibleGlobal : GlobalConstraints := ⟨5000, 6000, 0, 0, 0, 400⟩

/-- A variant of the product with a declared budget [1200,2000] inside the
realistic [1000,2400] and a declared man-hours maximum 500 above the realistic
400: both checks warn. -/
def cautiousWidget : Product :=
  ⟨"Widget", 10, 12, 20, 30, 100, 200, 1200, 2000, 1, 2, 0, 500⟩

/-- A second product, for inputs with more than one: cost [5,7], profit
[10,20], demand [50,80], budget [250,560], man-hours per unit [2,3], total
man-hours [0,240]. -/
def gadget : Product :=
  ⟨"Gadget", 5, 7, 10, 20, 50, 80, 250, 560, 2, 3, 0, 240⟩

/-- The objective `maximize_profit = 0`: a recognised pair with rank 0. -/
def maximizeProfitRankZero : Objective := ⟨"profit", "maximize", 0⟩

/-- The objective `minimize_resource_usage = 2`. -/
def minimizeResourceUsage : Objective := ⟨"resource_usage", "minimize", 2⟩

/-- The objective `maximize_profit = 1`. -/
def maximizeProfit : Objective := ⟨"profit", "maximize", 1⟩

/-! ## Reading the diagnostics -/

/-- Whether a message is a budget diagnostic (outside or narrower) of the
product named `n`. -/
def Message.aboutBudgetOf (n : String) : Message → Bool
  | Message.budgetOutside m _ _ _ _ => decide (m = n)
  | Message.budgetNarrower m _ _ _ _ => decide (m = n)
  | _ => false

/-- Whether a message is a man-hours diagnostic (below or exceeds) of the
product named `n`. -/
def Message.aboutManHoursOf (n : String) : Message → Bool
  | Message.manHoursBelow m _ => decide (m = n)
  | Message.manHoursExceeds m _ => decide (m = n)
  | _ => false

/-- Whether a message is a global budget diagnostic (outside or narrower). -/
def Message.aboutGlobalBudget : Message → Bool
  | Message.globalBudgetOutside _ _ _ _ => true
  | Message.globalBudgetNarrower _ _ _ _ => true
  | _ => false

/-- The critical errors one iteration of the product loop appends. -/
def productCriticals (product : Product) : List Message :=
  (validateProduct ⟨[], []⟩ product).criticalErrors

/-- The warnings one iteration of the product loop appends. -/
def productWarnings (product : Product) : List Message :=
  (validateProduct ⟨[], []⟩ product).warnings

/-- Whether the pair (name, type) of an objective is one of the three the
objectives loop tests for. -/
def recognised (o : Objective) : Bool :=
  decide ((o.name = "profit" ∧ o.type = "maximize") ∨
    (o.name = "resource_usage" ∧ o.type = "minimize") ∨
    (o.name = "budget_usage" ∧ o.type = "maximize"))

/-- Sum over the products of `costMin * demandMin`. -/
def realisticTotalMin (products : List Product) : ℚ :=
  (products.map (fun p => p.costMin * p.demandMin)).sum

/-- Sum over the products of `costMax * demandMax`. -/
def realisticTotalMax (products : List Product) : ℚ :=
  (products.map (fun p => p.costMax * p.demandMax)).sum

/-! ## Ingestion (`input.cpp`: `trim`, `parseRange`, `parseInputConfig`)

The library readers `std::stod` and `std::stoi` are arguments: they give the
number read or the message of the exception thrown.  The file is the list of
its lines, or `none` when it cannot be opened.  A thrown exception is
`Except.error` with its message. -/

deriving instance DecidableEq for Except

/-- The characters `trim` strips: space and tab. -/
def isBlank (c : Char) : Bool := c == ' ' || c == '\t'

/-- The helper `trim`: the text between the first and the last character that
is neither space nor tab, empty when there is none. -/
def trim (str : String) : String :=
  ⟨((str.data.dropWhile isBlank).reverse.dropWhile isBlank).reverse⟩

/-- The call `std::getline(ss, piece, ',')` on the characters not yet read:
it fails when none is left; otherwise it gives the characters before the first
comma (all of them when there is no comma) and leaves those after it. -/
def getlineComma (unread : List Char) : Option (List Char × List Char) :=
  match unread with
  | [] => none
  | _ => some (unread.takeWhile (fun c => c != ','), (unread.dropWhile (fun c => c != ',')).drop 1)

/-- The helper `parseRange`: the two pieces around the first comma, trimmed
and read by `std::stod`, in the order written. -/
def parseRange (stod : String → Except String ℚ) (value : String) : Except String (ℚ × ℚ) :=
  match getlineComma value.data with
  | none => Except.error ("Invalid range format: " ++ value)
  | some (min, unread) =>
    match getlineComma unread with
    | none => Except.error ("Invalid range format: " ++ value)
    | some (max, _) =>
      match stod (trim ⟨min⟩) with
      | Except.error e => Except.error e
      | Except.ok lo =>
        match stod (trim ⟨max⟩) with
        | Except.error e => Except.error e
        | Except.ok hi => Except.ok (lo, hi)

/-- The assignment `products[product.name] = product` on the map: the entry
with that key is replaced, or a new entry is added.  The list keeps the order
of first insertion. -/
def mapAssign (products : List Product) (product : Product) : List Product :=
  if products.any (fun q => decide (q.name = product.name)) then
    products.map (fun q => if q.name = product.name then product else q)
  else products ++ [product]

/-- The value `Product{}`: an empty name and zeros. -/
def emptyProduct : Product := ⟨"", 0, 0, 0, 0, 0, 0, 0, 0, 0, 0, 0, 0⟩

/-- The local state of the loop of `parseInputConfig`. -/
structure ParseState where
  products : List Product
  globalConstraints : GlobalConstraints
  objectives : List Objective
  currentSection : String
  currentProduct : Product
  deriving DecidableEq

/-- The test `!currentSection.empty() && currentSection != "Global" &&
currentSection != "Objectives"`. -/
def isProductSection (currentSection : String) : Bool :=
  decide (currentSection ≠ "" ∧ currentSection ≠ "Global" ∧ currentSection ≠ "Objectives")

/-- The `[Global]` branch of `parseInputConfig` for one `key = value` line. -/
def parseGlobal (stod : String → Except String ℚ) (key value : String)
    (g : GlobalConstraints) : Except String GlobalConstraints :=
  if key = "global_budget" then
    match parseRange stod value with
    | Except.error e => Except.error e
    | Except.ok r => Except.ok { g with budgetMin := r.1, budgetMax := r.2 }
  else if key = "global_profit" then
    match parseRange stod value with
    | Except.error e => Except.error e
    | Except.ok r => Except.ok { g with profitMin := r.1, profitMax := r.2 }
  else if key = "global_man_hours" then
    match parseRange stod value with
    | Except.error e => Except.error e
    | Except.ok r => Except.ok { g with manHoursMin := r.1, manHoursMax := r.2 }
  else Except.ok g

/-- The `[Objectives]` branch of `parseInputConfig` for one `key = value`
line: the key is split at its first underscore into type and name, the type
must be "maximize" or "minimize", the value is read by `std::stoi` and the
objective is appended with the rank `rank_value > 10 ? 10 : rank_value`. -/
def parseObjective (stoi : String → Except String Int) (key value : String)
    (objectives : List Objective) : Except String (List Objective) :=
  if ¬ ('_' ∈ key.data) then Except.error ("Invalid objective key: " ++ key)
  else
    let type : String := ⟨key.data.takeWhile (fun c => c != '_')⟩
    let name : String := ⟨(key.data.dropWhile (fun c => c != '_')).drop 1⟩
    if type ≠ "maximize" ∧ type ≠ "minimize" then
      Except.error ("Invalid objective type: " ++ type)
    else
      match stoi value with
      | Except.error e => Except.error e
      | Except.ok rank_value =>
        Except.ok (objectives ++ [⟨name, type, if rank_value > 10 then 10 else rank_value⟩])

/-- The product branch of `parseInputConfig` for one `key = value` line. -/
def parseProduct (stod : String → Except String ℚ) (key value : String)
    (p : Product) : Except String Product :=
  if key = "product_name" then Except.ok { p with name := value }
  else if key = "cost_range" then
    match parseRange stod value with
    | Except.error e => Except.error e
    | Except.ok r => Except.ok { p with costMin := r.1, costMax := r.2 }
  else if key = "profit_range" then
    match parseRange stod value with
    | Except.error e => Except.error e
    | Except.ok r => Except.ok { p with profitMin := r.1, profitMax := r.2 }
  else if key = "demand_range" then
    match parseRange stod value with
    | Except.error e => Except.error e
    | Except.ok r => Except.ok { p with demandMin := r.1, demandMax := r.2 }
  else if key = "budget_range" then
    match parseRange stod value with
    | Except.error e => Except.error e
    | Except.ok r => Except.ok { p with budgetMin := r.1, budgetMax := r.2 }
  else if key = "man_hour_per_unit" then
    match parseRange stod value with
    | Except.error e => Except.error e
    | Except.ok r => Except.ok { p with manHourPerUnitMin := r.1, manHourPerUnitMax := r.2 }
  else if key = "total_man_hours" then
    match parseRange stod value with
    | Except.error e => Except.error e
    | Except.ok r => Except.ok { p with totalManHoursMin := r.1, totalManHoursMax := r.2 }
  else Except.ok p

/-- Body of the loop of `parseInputConfig` for one line of the file. -/
def parseLine (stod : String → Except String ℚ) (stoi : String → Except String Int)
    (st : ParseState) (rawLine : String) : Except String ParseState :=
  let line := trim rawLine
  if line.data.isEmpty ∨ line.data.head? = some '#' then Except.ok st
  else if line.data.head? = some '[' ∧ line.data.getLast? = some ']' then
    let products :=
      if isProductSection st.currentSection then mapAssign st.products st.currentProduct
      else st.products
    let currentSection : String := ⟨(line.data.drop 1).take (line.data.length - 2)⟩
    let currentProduct :=
      if currentSection ≠ "Global" ∧ currentSection ≠ "Objectives" then emptyProduct
      else st.currentProduct
    Except.ok { st with
      products := products
      currentSection := currentSection
      currentProduct := currentProduct }
  else if ¬ ('=' ∈ line.data) then Except.error ("Invalid config line: " ++ line)
  else
    let key := trim ⟨line.data.takeWhile (fun c => c != '=')⟩
    let value := trim ⟨(line.data.dropWhile (fun c => c != '=')).drop 1⟩
    if st.currentSection = "Global" then
      match parseGlobal stod key value st.globalConstraints with
      | Except.error e => Except.error e
      | Except.ok g => Except.ok { st with globalConstraints := g }
    else if st.currentSection = "Objectives" then
      match parseObjective stoi key value st.objectives with
      | Except.error e => Except.error e
      | Except.ok objectives => Except.ok { st with objectives := objectives }
    else
      match parseProduct stod key value st.currentProduct with
      | Except.error e => Except.error e
      | Except.ok p => Except.ok { st with currentProduct := p }

/-- The loop of `parseInputConfig` over the lines of the file. -/
def parseLines (stod : String → Except String ℚ) (stoi : String → Except String Int) :
    ParseState → List String → Except String ParseState
  | st, [] => Except.ok st
  | st, rawLine :: others =>
    match parseLine stod stoi st rawLine with
    | Except.error e => Except.error e
    | Except.ok st1 => parseLines stod stoi st1 others

/-- The function `parseInputConfig`.  The arguments `globalConstraints` and
`objectives` are the caller's variables it writes through its references, and
`uninitialised` is the value the local `Product currentProduct;` starts
with. -/
def parseInputConfig (stod : String → Except String ℚ) (stoi : String → Except String Int)
    (file : Option (List String)) (globalConstraints : GlobalConstraints)
    (objectives : List Objective) (uninitialised : Product) :
    Except String (List Product × GlobalConstraints × List Objective) :=
  match file with
  | none => Except.error "Failed to open input file"
  | some lines =>
    match parseLines stod stoi ⟨[], globalConstraints, objectives, "", uninitialised⟩ lines with
    | Except.error e => Except.error e
    | Except.ok st =>
      let products :=
        if isProductSection st.currentSection then mapAssign st.products st.currentProduct
        else st.products
      Except.ok (products, st.globalConstraints, st.objectives)

/-- The value of a text of decimal digits, `none` for any other text. -/
def decimalValue (cs : List Char) : Option Nat :=
  if cs.isEmpty ∨ ¬ cs.all Char.isDigit then none
  else some (cs.foldl (fun n c => 10 * n + (c.toNat - '0'.toNat)) 0)

/-- A reader for the scenarios: on a text of decimal digits it gives what
`std::stoi` gives for it (within the range of `int`); other texts, which the
scenarios do not use, it refuses. -/
def stoiDigits (str : String) : Except String Int :=
  match decimalValue str.data with
  | some n => Except.ok (n : Int)
  | none => Except.error "stoi"

/-- A reader for the scenarios: on a text of decimal digits it gives what
`std::stod` gives for it; other texts, which the scenarios do not use, it
refuses. -/
def stodDigits (str : String) : Except String ℚ :=
  match decimalValue str.data with
  | some n => Except.ok (n : ℚ)
  | none => Except.error "stod"

/-! ## The linear program the model poses -/

/-- Modelled from the spec: the value a row takes at a point, the sum of its
coefficients times the variables on its columns (a row is "one linear
inequality constraint, expressed as a sparse coefficient vector with a lower
and upper bound"). -/
def Row.activity (r : Row) (x : List ℚ) : ℚ :=
  ((r.columns.zip r.elements).map (fun ce => ce.2 * x.getD ce.1 0)).sum

/-- Modelled from the spec: a point satisfies a row when the row's value lies
between the row's bounds. -/
def Row.satisfied (r : Row) (x : List ℚ) : Prop :=
  r.rowLower ≤ r.activity x ∧ r.activity x ≤ r.rowUpper

instance (r : Row) (x : List ℚ) : Decidable (r.satisfied x) :=
  inferInstanceAs (Decidable (r.rowLower ≤ r.activity x ∧ r.activity x ≤ r.rowUpper))

/-- Modelled from the spec: a point satisfies the bounds of column `i`. -/
def ClpSimplex.withinBounds (m : ClpSimplex) (x : List ℚ) (i : Nat) : Prop :=
  m.columnLower.getD i 0 ≤ x.getD i 0 ∧ x.getD i 0 ≤ m.columnUpper.getD i 0

instance (m : ClpSimplex) (x : List ℚ) (i : Nat) : Decidable (m.withinBounds x i) :=
  inferInstanceAs (Decidable
    (m.columnLower.getD i 0 ≤ x.getD i 0 ∧ x.getD i 0 ≤ m.columnUpper.getD i 0))

/-- Modelled from the spec: a point is feasible for the model when it has one
value per column, every column bound holds and every row is satisfied. -/
def ClpSimplex.feasible (m : ClpSimplex) (x : List ℚ) : Prop :=
  x.length = m.columnLower.length ∧
    (∀ i ∈ List.range m.columnLower.length, m.withinBounds x i) ∧
    (∀ r ∈ m.rows, r.satisfied x)

instance (m : ClpSimplex) (x : List ℚ) : Decidable (m.feasible x) :=
  inferInstanceAs (Decidable
    (x.length = m.columnLower.length ∧
      (∀ i ∈ List.range m.columnLower.length, m.withinBounds x i) ∧
      (∀ r ∈ m.rows, r.satisfied x)))

/-- Modelled from the spec: the value of the linear objective at a point. -/
def ClpSimplex.objectiveValue (m : ClpSimplex) (x : List ℚ) : ℚ :=
  ((m.objective.zip x).map (fun cx => cx.1 * cx.2)).sum

/-- Modelled from the spec: the solver prefers `x` to `y` when the objective
at `x` is better in the sense the model's direction denotes: higher under
maximize, lower under minimize, never under ignore or an unknown value. -/
def ClpSimplex.prefers (m : ClpSimplex) (x y : List ℚ) : Prop :=
  match clpSense m.optimizationDirection with
  | some Sense.maximize => m.objectiveValue x > m.objectiveValue y
  | some Sense.minimize => m.objectiveValue x < m.objectiveValue y
  | _ => False

/-! ## Reading the solution checks -/

/-- The violations one iteration of the loop of `validateSolution` appends for
a product, given the `budgetUsed` and `manHoursUsed` it computed. -/
def unitViolations (product : Product) (budgetUsed manHoursUsed : ℚ) : List Violation :=
  (if budgetUsed < product.budgetMin ∨ budgetUsed > product.budgetMax then
      [Violation.budget product.name]
    else []) ++
  (if manHoursUsed > product.totalManHoursMax then [Violation.manHours product.name]
    else [])

/-- The pair `(totalBudgetUsed, totalManHoursUsed)` the loop of
`validateSolution` ends with. -/
def validateSolutionTotals (s : Solver) : ℚ × ℚ :=
  let solution := s.model.getColSolution
  let st := s.products.foldl (validateSolutionStep s solution) ⟨0, 0, 0, []⟩
  (st.totalBudgetUsed, st.totalManHoursUsed)

/-! ## Lemmas on the validation loops -/

theorem validateProduct_eq (d : Diagnostics) (p : Product) :
    validateProduct d p =
      ⟨d.criticalErrors ++ productCriticals p, d.warnings ++ productWarnings p⟩ := by
  unfold productCriticals productWarnings validateProduct
  dsimp only
  split_ifs <;> simp

theorem foldl_validateProduct (ps : List Product) (d : Diagnostics) :
    ps.foldl validateProduct d =
      ⟨d.criticalErrors ++ ps.flatMap productCriticals,
        d.warnings ++ ps.flatMap productWarnings⟩ := by
  induction ps generalizing d with
  | nil => simp
  | cons p ps ih => simp [ih, validateProduct_eq, List.flatMap_cons]

theorem foldl_accumulateBudget (ps : List Product) (t : ℚ × ℚ) :
    ps.foldl accumulateBudget t =
      (t.1 + realisticTotalMin ps, t.2 + realisticTotalMax ps) := by
  induction ps generalizing t with
  | nil => simp [realisticTotalMin, realisticTotalMax]
  | cons p ps ih =>
    simp [ih, accumulateBudget, realisticTotalMin, realisticTotalMax, add_assoc]

theorem validateGlobal_eq (d : Diagnostics) (gc : GlobalConstraints) (a b : ℚ) :
    validateGlobal d gc a b =
      ⟨d.criticalErrors ++ (validateGlobal ⟨[], []⟩ gc a b).criticalErrors,
        d.warnings ++ (validateGlobal ⟨[], []⟩ gc a b).warnings⟩ := by
  unfold validateGlobal
  split_ifs <;> simp

theorem collectDiagnostics_criticalErrors (ps : List Product) (gc : GlobalConstraints) :
    (collectDiagnostics ps gc).criticalErrors =
      ps.flatMap productCriticals ++
        (validateGlobal ⟨[], []⟩ gc (realisticTotalMin ps)
          (realisticTotalMax ps)).criticalErrors := by
  unfold collectDiagnostics
  dsimp only
  rw [validateGlobal_eq, foldl_validateProduct, foldl_accumulateBudget]
  simp

theorem collectDiagnostics_warnings (ps : List Product) (gc : GlobalConstraints) :
    (collectDiagnostics ps gc).warnings =
      ps.flatMap productWarnings ++
        (validateGlobal ⟨[], []⟩ gc (realisticTotalMin ps)
          (realisticTotalMax ps)).warnings := by
  unfold collectDiagnostics
  dsimp only
  rw [validateGlobal_eq, foldl_validateProduct, foldl_accumulateBudget]
  simp

theorem validateInput_criticalErrors (ps : List Product) (gc : GlobalConstraints)
    (objs : List Objective) (choice : Char) :
    (validateInput ps gc objs choice).criticalErrors =
      (collectDiagnostics ps gc).criticalErrors := by
  unfold validateInput
  dsimp only
  split_ifs <;> rfl

theorem validateInput_warnings (ps : List Product) (gc : GlobalConstraints)
    (objs : List Objective) (choice : Char) :
    (validateInput ps gc objs choice).warnings = (collectDiagnostics ps gc).warnings := by
  unfold validateInput
  dsimp only
  split_ifs <;> rfl

theorem exists_budget_productCriticals (q : Product) (n : String) :
    (∃ m ∈ productCriticals q, m.aboutBudgetOf n = true) ↔
      (q.name = n ∧
        (q.budgetMin < q.costMin * q.demandMin ∨ q.budgetMax > q.costMax * q.demandMax)) := by
  unfold productCriticals validateProduct
  dsimp only
  split_ifs <;> simp_all [Message.aboutBudgetOf]

theorem exists_budget_productWarnings (q : Product) (n : String) :
    (∃ m ∈ productWarnings q, m.aboutBudgetOf n = true) ↔
      (q.name = n ∧
        ¬ (q.budgetMin < q.costMin * q.demandMin ∨ q.budgetMax > q.costMax * q.demandMax) ∧
        (q.budgetMin > q.costMin * q.demandMin ∨ q.budgetMax < q.costMax * q.demandMax)) := by
  unfold productWarnings validateProduct
  dsimp only
  split_ifs <;> simp_all [Message.aboutBudgetOf]

theorem exists_manHours_productCriticals (q : Product) (n : String) :
    (∃ m ∈ productCriticals q, m.aboutManHoursOf n = true) ↔
      (q.name = n ∧
        (q.totalManHoursMax > 0 ∧ q.totalManHoursMax < q.manHourPerUnitMin * q.demandMin)) := by
  unfold productCriticals validateProduct
  dsimp only
  split_ifs <;> simp_all [Message.aboutManHoursOf]

theorem exists_manHours_productWarnings (q : Product) (n : String) :
    (∃ m ∈ productWarnings q, m.aboutManHoursOf n = true) ↔
      (q.name = n ∧
        ¬ (q.totalManHoursMax > 0 ∧ q.totalManHoursMax < q.manHourPerUnitMin * q.demandMin) ∧
        q.totalManHoursMax > q.manHourPerUnitMax * q.demandMax) := by
  unfold productWarnings validateProduct
  dsimp only
  split_ifs <;> simp_all [Message.aboutManHoursOf]

theorem validateGlobal_not_aboutBudgetOf (gc : GlobalConstraints) (a b : ℚ) (n : String)
    (m : Message)
    (hm : m ∈ (validateGlobal ⟨[], []⟩ gc a b).criticalErrors ∨
      m ∈ (validateGlobal ⟨[], []⟩ gc a b).warnings) :
    m.aboutBudgetOf n = false ∧ m.aboutManHoursOf n = false := by
  unfold validateGlobal at hm
  split_ifs at hm <;> simp at hm <;>
    (subst hm; simp [Message.aboutBudgetOf, Message.aboutManHoursOf])

theorem exists_flatMap_append_iff (ps : List Product) (f : Product → List Message)
    (g : List Message) (pred : Message → Bool) (hg : ∀ m ∈ g, pred m = false) :
    (∃ m ∈ ps.flatMap f ++ g, pred m = true) ↔ ∃ q ∈ ps, ∃ m ∈ f q, pred m = true := by
  constructor
  · rintro ⟨m, hm, hpred⟩
    rcases List.mem_append.mp hm with h | h
    · obtain ⟨q, hq, hmq⟩ := List.mem_flatMap.mp h
      exact ⟨q, hq, m, hmq, hpred⟩
    · rw [hg m h] at hpred
      exact absurd hpred (by simp)
  · rintro ⟨q, hq, m, hmq, hpred⟩
    exact ⟨m, List.mem_append.mpr (Or.inl (List.mem_flatMap.mpr ⟨q, hq, hmq⟩)), hpred⟩

theorem exists_named_iff (ps : List Product) (hnd : (ps.map Product.name).Nodup)
    (p : Product) (hp : p ∈ ps) (P : Product → Prop) :
    (∃ q ∈ ps, q.name = p.name ∧ P q) ↔ P p := by
  constructor
  · rintro ⟨q, hq, hname, hP⟩
    have : q = p := List.inj_on_of_nodup_map hnd hq hp hname
    rwa [this] at hP
  · intro hP
    exact ⟨p, hp, rfl, hP⟩

theorem exists_budget_critical (ps : List Product) (gc : GlobalConstraints)
    (objs : List Objective) (choice : Char) (n : String) :
    (∃ m ∈ (validateInput ps gc objs choice).criticalErrors, m.aboutBudgetOf n = true) ↔
      ∃ q ∈ ps, q.name = n ∧
        (q.budgetMin < q.costMin * q.demandMin ∨ q.budgetMax > q.costMax * q.demandMax) := by
  rw [validateInput_criticalErrors, collectDiagnostics_criticalErrors,
    exists_flatMap_append_iff _ _ _ _
      (fun m hm => (validateGlobal_not_aboutBudgetOf gc _ _ n m (Or.inl hm)).1)]
  simp only [exists_budget_productCriticals]

theorem exists_budget_warning (ps : List Product) (gc : GlobalConstraints)
    (objs : List Objective) (choice : Char) (n : String) :
    (∃ m ∈ (validateInput ps gc objs choice).warnings, m.aboutBudgetOf n = true) ↔
      ∃ q ∈ ps, q.name = n ∧
        (¬ (q.budgetMin < q.costMin * q.demandMin ∨ q.budgetMax > q.costMax * q.demandMax) ∧
        (q.budgetMin > q.costMin * q.demandMin ∨ q.budgetMax < q.costMax * q.demandMax)) := by
  rw [validateInput_warnings, collectDiagnostics_warnings,
    exists_flatMap_append_iff _ _ _ _
      (fun m hm => (validateGlobal_not_aboutBudgetOf gc _ _ n m (Or.inr hm)).1)]
  simp only [exists_budget_productWarnings]

theorem exists_manHours_critical (ps : List Product) (gc : GlobalConstraints)
    (objs : List Objective) (choice : Char) (n : String) :
    (∃ m ∈ (validateInput ps gc objs choice).criticalErrors, m.aboutManHoursOf n = true) ↔
      ∃ q ∈ ps, q.name = n ∧
        (q.totalManHoursMax > 0 ∧
          q.totalManHoursMax < q.manHourPerUnitMin * q.demandMin) := by
  rw [validateInput_criticalErrors, collectDiagnostics_criticalErrors,
    exists_flatMap_append_iff _ _ _ _
      (fun m hm => (validateGlobal_not_aboutBudgetOf gc _ _ n m (Or.inl hm)).2)]
  simp only [exists_manHours_productCriticals]

theorem exists_manHours_warning (ps : List Product) (gc : GlobalConstraints)
    (objs : List Objective) (choice : Char) (n : String) :
    (∃ m ∈ (validateInput ps gc objs choice).warnings, m.aboutManHoursOf n = true) ↔
      ∃ q ∈ ps, q.name = n ∧
        (¬ (q.totalManHoursMax > 0 ∧
          q.totalManHoursMax < q.manHourPerUnitMin * q.demandMin) ∧
        q.totalManHoursMax > q.manHourPerUnitMax * q.demandMax) := by
  rw [validateInput_warnings, collectDiagnostics_warnings,
    exists_flatMap_append_iff _ _ _ _
      (fun m hm => (validateGlobal_not_aboutBudgetOf gc _ _ n m (Or.inr hm)).2)]
  simp only [exists_manHours_productWarnings]

/-! ## C1: the budget check of the Range Validator -/

/-- C1. For a product `p` of the map (names are the keys, hence distinct),
`validateInput` puts a budget diagnostic of `p` among the critical errors
exactly when `budgetMin < costMin * demandMin` or
`budgetMax > costMax * demandMax`; it puts one among the warnings exactly when
the declared interval lies inside the realistic one and differs from it; when
the two intervals are equal no budget diagnostic of `p` is emitted at all; and
when the declared interval lies inside the realistic one there is no critical
budget error of `p`. -/
theorem budget_check_classification (ps : List Product) (gc : GlobalConstraints)
    (objs : List Objective) (choice : Char) (p : Product) (hp : p ∈ ps)
    (hnd : (ps.map Product.name).Nodup) :
    ((∃ m ∈ (validateInput ps gc objs choice).criticalErrors,
        m.aboutBudgetOf p.name = true) ↔
      (p.budgetMin < p.costMin * p.demandMin ∨ p.budgetMax > p.costMax * p.demandMax)) ∧
    ((∃ m ∈ (validateInput ps gc objs choice).warnings,
        m.aboutBudgetOf p.name = true) ↔
      ((p.costMin * p.demandMin ≤ p.budgetMin ∧ p.budgetMax ≤ p.costMax * p.demandMax) ∧
        (p.budgetMin > p.costMin * p.demandMin ∨ p.budgetMax < p.costMax * p.demandMax))) ∧
    ((p.budgetMin = p.costMin * p.demandMin ∧ p.budgetMax = p.costMax * p.demandMax) →
      ∀ m, m ∈ (validateInput ps gc objs choice).criticalErrors ∨
          m ∈ (validateInput ps gc objs choice).warnings →
        m.aboutBudgetOf p.name = false) ∧
    ((p.budgetMin ≥ p.costMin * p.demandMin ∧ p.budgetMax ≤ p.costMax * p.demandMax) →
      ∀ m ∈ (validateInput ps gc objs choice).criticalErrors,
        m.aboutBudgetOf p.name = false) := by
  have hc := (exists_budget_critical ps gc objs choice p.name).trans
    (exists_named_iff ps hnd p hp _)
  have hw := (exists_budget_warning ps gc objs choice p.name).trans
    (exists_named_iff ps hnd p hp _)
  refine ⟨hc, ?_, ?_, ?_⟩
  · rw [hw]
    simp only [not_or, not_lt, gt_iff_lt]
  · rintro ⟨h1, h2⟩ m hm
    by_contra hne
    have hb : m.aboutBudgetOf p.name = true := by simpa using hne
    rcases hm with hm | hm
    · have := hc.mp ⟨m, hm, hb⟩
      rcases this with h | h
      · exact absurd h (by rw [h1]; exact lt_irrefl _)
      · exact absurd h (by rw [h2]; exact lt_irrefl _)
    · have := (hw.mp ⟨m, hm, hb⟩).2
      rcases this with h | h
      · exact absurd h (by rw [h1]; exact lt_irrefl _)
      · exact absurd h (by rw [h2]; exact lt_irrefl _)
  · rintro ⟨h1, h2⟩ m hm
    by_contra hne
    have hb : m.aboutBudgetOf p.name = true := by simpa using hne
    rcases hc.mp ⟨m, hm, hb⟩ with h | h
    · exact absurd h (not_lt.mpr h1)
    · exact absurd h (not_lt.mpr h2)

/-- C1, at an input: the map holding only the Widget product, whose declared
budget equals the realistic one, yields no critical budget error for it. -/
theorem budget_check_classification_witness :
    (widget ∈ [widget] ∧ ([widget].map Product.name).Nodup) ∧
      ∀ m ∈ (validateInput [widget] widgetGlobal [maximizeProfit] 'y').criticalErrors,
        m.aboutBudgetOf widget.name = false :=
  ⟨⟨by simp, by simp⟩,
    (budget_check_classification [widget] widgetGlobal [maximizeProfit] 'y' widget
      (by simp) (by simp)).2.2.2 (by norm_num [widget])⟩

/-! ## C2: a critical error and a warning never come together -/

theorem countP_flatMap_eq_zero (ps : List Product) (f : Product → List Message)
    (pred : Message → Bool) (h : ∀ q ∈ ps, List.countP pred (f q) = 0) :
    List.countP pred (ps.flatMap f) = 0 := by
  induction ps with
  | nil => simp
  | cons q ps ih =>
    rw [List.flatMap_cons, List.countP_append, h q (List.mem_cons_self _ _),
      ih (fun r hr => h r (List.mem_cons_of_mem _ hr))]

theorem countP_flatMap_le_one (ps : List Product) (hnd : (ps.map Product.name).Nodup)
    (n : String) (f g : Product → List Message) (pred : Message → Bool)
    (h1 : ∀ q, List.countP pred (f q) + List.countP pred (g q) ≤ 1)
    (h0 : ∀ q, q.name ≠ n → List.countP pred (f q) = 0 ∧ List.countP pred (g q) = 0) :
    List.countP pred (ps.flatMap f) + List.countP pred (ps.flatMap g) ≤ 1 := by
  induction ps with
  | nil => simp
  | cons q ps ih =>
    rw [List.map_cons, List.nodup_cons] at hnd
    rw [List.flatMap_cons, List.flatMap_cons, List.countP_append, List.countP_append]
    by_cases hq : q.name = n
    · have hrest : ∀ r ∈ ps, r.name ≠ n := by
        intro r hr hrn
        exact hnd.1 (List.mem_map.mpr ⟨r, hr, hrn.trans hq.symm⟩)
      rw [countP_flatMap_eq_zero ps f pred (fun r hr => (h0 r (hrest r hr)).1),
        countP_flatMap_eq_zero ps g pred (fun r hr => (h0 r (hrest r hr)).2)]
      have := h1 q
      omega
    · have := h0 q hq
      have := ih hnd.2
      omega

theorem countP_budget_product (q : Product) (n : String) :
    List.countP (Message.aboutBudgetOf n) (productCriticals q) +
        List.countP (Message.aboutBudgetOf n) (productWarnings q) ≤ 1 ∧
      (q.name ≠ n →
        List.countP (Message.aboutBudgetOf n) (productCriticals q) = 0 ∧
          List.countP (Message.aboutBudgetOf n) (productWarnings q) = 0) := by
  unfold productCriticals productWarnings validateProduct
  dsimp only
  split_ifs <;> by_cases hq : q.name = n <;>
    simp [Message.aboutBudgetOf, List.countP_cons, hq]

theorem countP_manHours_product (q : Product) (n : String) :
    List.countP (Message.aboutManHoursOf n) (productCriticals q) +
        List.countP (Message.aboutManHoursOf n) (productWarnings q) ≤ 1 ∧
      (q.name ≠ n →
        List.countP (Message.aboutManHoursOf n) (productCriticals q) = 0 ∧
          List.countP (Message.aboutManHoursOf n) (productWarnings q) = 0) := by
  unfold productCriticals productWarnings validateProduct
  dsimp only
  split_ifs <;> by_cases hq : q.name = n <;>
    simp [Message.aboutManHoursOf, List.countP_cons, hq]

theorem countP_global_product (q : Product) :
    List.countP Message.aboutGlobalBudget (productCriticals q) = 0 ∧
      List.countP Message.aboutGlobalBudget (productWarnings q) = 0 := by
  unfold productCriticals productWarnings validateProduct
  dsimp only
  split_ifs <;> simp [Message.aboutGlobalBudget, List.countP_cons]

theorem countP_validateGlobal (gc : GlobalConstraints) (a b : ℚ) (n : String) :
    (List.countP Message.aboutGlobalBudget (validateGlobal ⟨[], []⟩ gc a b).criticalErrors +
        List.countP Message.aboutGlobalBudget (validateGlobal ⟨[], []⟩ gc a b).warnings ≤ 1) ∧
      List.countP (Message.aboutBudgetOf n) (validateGlobal ⟨[], []⟩ gc a b).criticalErrors = 0 ∧
      List.countP (Message.aboutBudgetOf n) (validateGlobal ⟨[], []⟩ gc a b).warnings = 0 ∧
      List.countP (Message.aboutManHoursOf n) (validateGlobal ⟨[], []⟩ gc a b).criticalErrors = 0 ∧
      List.countP (Message.aboutManHoursOf n) (validateGlobal ⟨[], []⟩ gc a b).warnings = 0 := by
  unfold validateGlobal
  split_ifs <;>
    simp [Message.aboutGlobalBudget, Message.aboutBudgetOf, Message.aboutManHoursOf,
      List.countP_cons]

/-- C2. With distinct product names (the keys of the map), the diagnostics of
`validateInput` hold, for every product name, at most one budget diagnostic
and at most one man-hours diagnostic, counted over the critical errors and the
warnings together, and at most one global budget diagnostic; so no quantity of
any entity has both a critical error and a warning. -/
theorem error_warning_disjoint (ps : List Product) (gc : GlobalConstraints)
    (objs : List Objective) (choice : Char) (hnd : (ps.map Product.name).Nodup) :
    (∀ n : String,
      List.countP (Message.aboutBudgetOf n) (validateInput ps gc objs choice).criticalErrors +
        List.countP (Message.aboutBudgetOf n) (validateInput ps gc objs choice).warnings
          ≤ 1) ∧
    (∀ n : String,
      List.countP (Message.aboutManHoursOf n)
          (validateInput ps gc objs choice).criticalErrors +
        List.countP (Message.aboutManHoursOf n) (validateInput ps gc objs choice).warnings
          ≤ 1) ∧
    (List.countP Message.aboutGlobalBudget (validateInput ps gc objs choice).criticalErrors +
      List.countP Message.aboutGlobalBudget (validateInput ps gc objs choice).warnings
        ≤ 1) := by
  rw [validateInput_criticalErrors, validateInput_warnings,
    collectDiagnostics_criticalErrors, collectDiagnostics_warnings]
  simp only [List.countP_append]
  refine ⟨fun n => ?_, fun n => ?_, ?_⟩
  · have hg := countP_validateGlobal gc (realisticTotalMin ps) (realisticTotalMax ps) n
    have := countP_flatMap_le_one ps hnd n productCriticals productWarnings
      (Message.aboutBudgetOf n) (fun q => (countP_budget_product q n).1)
      (fun q => (countP_budget_product q n).2)
    omega
  · have hg := countP_validateGlobal gc (realisticTotalMin ps) (realisticTotalMax ps) n
    have := countP_flatMap_le_one ps hnd n productCriticals productWarnings
      (Message.aboutManHoursOf n) (fun q => (countP_manHours_product q n).1)
      (fun q => (countP_manHours_product q n).2)
    omega
  · have hg := countP_validateGlobal gc (realisticTotalMin ps) (realisticTotalMax ps) ""
    have h1 := countP_flatMap_eq_zero ps productCriticals Message.aboutGlobalBudget
      (fun q _ => (countP_global_product q).1)
    have h2 := countP_flatMap_eq_zero ps productWarnings Message.aboutGlobalBudget
      (fun q _ => (countP_global_product q).2)
    omega

/-- C2, at an input: for the map holding only the cautious Widget, whose two
checks both warn, the budget diagnostics of "Widget" number at most one. -/
theorem error_warning_disjoint_witness :
    ([cautiousWidget].map Product.name).Nodup ∧
      List.countP (Message.aboutBudgetOf "Widget")
          (validateInput [cautiousWidget] widgetGlobal [maximizeProfit] 'y').criticalErrors +
        List.countP (Message.aboutBudgetOf "Widget")
          (validateInput [cautiousWidget] widgetGlobal [maximizeProfit] 'y').warnings ≤ 1 :=
  ⟨by simp,
    (error_warning_disjoint [cautiousWidget] widgetGlobal [maximizeProfit] 'y'
      (by simp)).1 "Widget"⟩

/-! ## C3: the decision policy of `validateInput` -/

/-- C3. With a critical error collected, `validateInput` returns false and
does not read the answer; with no critical error and a warning, it reads the
answer and returns true exactly when the answer is `y` or `Y`; with neither,
it returns true and does not read the answer. -/
theorem decision_policy (ps : List Product) (gc : GlobalConstraints)
    (objs : List Objective) (choice : Char) :
    ((validateInput ps gc objs choice).criticalErrors ≠ [] →
      (validateInput ps gc objs choice).result = false ∧
        (validateInput ps gc objs choice).prompted = false) ∧
    ((validateInput ps gc objs choice).criticalErrors = [] →
      (validateInput ps gc objs choice).warnings ≠ [] →
      (validateInput ps gc objs choice).result = decide (choice = 'y' ∨ choice = 'Y') ∧
        (validateInput ps gc objs choice).prompted = true) ∧
    ((validateInput ps gc objs choice).criticalErrors = [] →
      (validateInput ps gc objs choice).warnings = [] →
      (validateInput ps gc objs choice).result = true ∧
        (validateInput ps gc objs choice).prompted = false) := by
  rw [validateInput_criticalErrors, validateInput_warnings]
  unfold validateInput
  dsimp only
  refine ⟨fun h => ?_, fun h1 h2 => ?_, fun h1 h2 => ?_⟩
  · simp [h]
  · by_cases hy : choice = 'y' <;> by_cases hY : choice = 'Y' <;> simp [h1, h2, hy, hY]
  · simp [h1, h2]

/-- C3, at an input: the cautious Widget yields warnings and no critical
error, so with the answer `Y` the confirmation is read and the result is
true. -/
theorem decision_policy_witness :
    ((validateInput [cautiousWidget] widgetGlobal [maximizeProfit] 'Y').criticalErrors = [] ∧
      (validateInput [cautiousWidget] widgetGlobal [maximizeProfit] 'Y').warnings ≠ []) ∧
      ((validateInput [cautiousWidget] widgetGlobal [maximizeProfit] 'Y').result =
          decide ('Y' = 'y' ∨ 'Y' = 'Y') ∧
        (validateInput [cautiousWidget] widgetGlobal [maximizeProfit] 'Y').prompted = true) :=
  have hc : (validateInput [cautiousWidget] widgetGlobal [maximizeProfit] 'Y').criticalErrors
      = [] := by
    norm_num [validateInput_criticalErrors, collectDiagnostics, validateProduct,
      validateGlobal, accumulateBudget, cautiousWidget, widgetGlobal]
  have hw : (validateInput [cautiousWidget] widgetGlobal [maximizeProfit] 'Y').warnings
      ≠ [] := by
    norm_num [validateInput_warnings, collectDiagnostics, validateProduct,
      validateGlobal, accumulateBudget, cautiousWidget, widgetGlobal]
    exact List.cons_ne_nil _ _
  ⟨⟨hc, hw⟩,
    (decision_policy [cautiousWidget] widgetGlobal [maximizeProfit] 'Y').2.1 hc hw⟩

/-! ## C4: an infeasible global budget halts the program -/

theorem validateInput_result_false_of_critical (ps : List Product)
    (gc : GlobalConstraints) (objs : List Objective) (choice : Char) (m : Message)
    (hm : m ∈ (validateInput ps gc objs choice).criticalErrors) :
    (validateInput ps gc objs choice).result = false := by
  rw [validateInput_criticalErrors] at hm
  have hne : (collectDiagnostics ps gc).criticalErrors ≠ [] := List.ne_nil_of_mem hm
  unfold validateInput
  simp [hne]

theorem globalBudgetOutside_mem (ps : List Product) (gc : GlobalConstraints)
    (objs : List Objective) (choice : Char)
    (h : gc.budgetMin < realisticTotalMin ps ∨ gc.budgetMax > realisticTotalMax ps) :
    Message.globalBudgetOutside gc.budgetMin gc.budgetMax (realisticTotalMin ps)
        (realisticTotalMax ps) ∈ (validateInput ps gc objs choice).criticalErrors := by
  rw [validateInput_criticalErrors, collectDiagnostics_criticalErrors]
  apply List.mem_append_right
  unfold validateGlobal
  simp [h]

/-- C4. When the declared global budget minimum is below the sum over the
products of `costMin * demandMin`, or the declared maximum is above the sum of
`costMax * demandMax`, `validateInput` collects the global critical error and
returns false whatever the answer, and `main` exits with status 1 without
constructing or running the solver. -/
theorem infeasible_global_budget_halts (ps : List Product) (gc : GlobalConstraints)
    (objs : List Objective) (choice : Char) (primal : ClpSimplex → Int × List ℚ)
    (h : gc.budgetMin < realisticTotalMin ps ∨ gc.budgetMax > realisticTotalMax ps) :
    Message.globalBudgetOutside gc.budgetMin gc.budgetMax (realisticTotalMin ps)
        (realisticTotalMax ps) ∈ (validateInput ps gc objs choice).criticalErrors ∧
      (validateInput ps gc objs choice).result = false ∧
      (main (Except.ok (ps, gc, objs)) choice primal).exitStatus = 1 ∧
      (main (Except.ok (ps, gc, objs)) choice primal).solved = none := by
  have hm := globalBudgetOutside_mem ps gc objs choice h
  have hr := validateInput_result_false_of_critical ps gc objs choice _ hm
  refine ⟨hm, hr, ?_, ?_⟩ <;> simp [main, hr]

/-- C4, at the scenario: the Widget product has the realistic total
[1000,2400]; with the global budget [5000,6000] the global critical error is
collected, validation fails for the answer `y`, and `main` exits with 1
without a solve. -/
theorem infeasible_global_budget_halts_witness :
    (realisticTotalMin [widget] = 1000 ∧ realisticTotalMax [widget] = 2400) ∧
      (infeasibleGlobal.budgetMin < realisticTotalMin [widget] ∨
        infeasibleGlobal.budgetMax > realisticTotalMax [widget]) ∧
      (Message.globalBudgetOutside infeasibleGlobal.budgetMin infeasibleGlobal.budgetMax
          (realisticTotalMin [widget]) (realisticTotalMax [widget]) ∈
          (validateInput [widget] infeasibleGlobal [maximizeProfit] 'y').criticalErrors ∧
        (validateInput [widget] infeasibleGlobal [maximizeProfit] 'y').result = false ∧
        (main (Except.ok ([widget], infeasibleGlobal, [maximizeProfit])) 'y'
          (fun _ => (0, [200]))).exitStatus = 1 ∧
        (main (Except.ok ([widget], infeasibleGlobal, [maximizeProfit])) 'y'
          (fun _ => (0, [200]))).solved = none) :=
  ⟨by norm_num [realisticTotalMin, realisticTotalMax, widget],
    by norm_num [realisticTotalMin, realisticTotalMax, widget, infeasibleGlobal],
    infeasible_global_budget_halts [widget] infeasibleGlobal [maximizeProfit] 'y'
      (fun _ => (0, [200]))
      (by norm_num [realisticTotalMin, realisticTotalMax, widget, infeasibleGlobal])⟩

/-! ## C5: the labor check of the Range Validator -/

theorem validateProduct_totalManHoursMin (d : Diagnostics) (q : Product) (x : ℚ) :
    validateProduct d { q with totalManHoursMin := x } = validateProduct d q := rfl

theorem accumulateBudget_totalManHoursMin (t : ℚ × ℚ) (q : Product) (x : ℚ) :
    accumulateBudget t { q with totalManHoursMin := x } = accumulateBudget t q := rfl

theorem collectDiagnostics_totalManHoursMin (ps : List Product) (gc : GlobalConstraints)
    (f : Product → ℚ) :
    collectDiagnostics (ps.map (fun q => { q with totalManHoursMin := f q })) gc =
      collectDiagnostics ps gc := by
  unfold collectDiagnostics
  simp only [List.foldl_map, validateProduct_totalManHoursMin,
    accumulateBudget_totalManHoursMin]

/-- C5. For a product `p` of the map (distinct names), `validateInput` puts a
man-hours diagnostic of `p` among the critical errors exactly when
`totalManHoursMax > 0` and `totalManHoursMax < manHourPerUnitMin * demandMin`,
and among the warnings exactly when that does not hold and
`totalManHoursMax > manHourPerUnitMax * demandMax`; a zero `totalManHoursMax`
gives no man-hours critical error; and replacing every `totalManHoursMin` by
any other value leaves the whole outcome of `validateInput` unchanged. -/
theorem labor_check_classification (ps : List Product) (gc : GlobalConstraints)
    (objs : List Objective) (choice : Char) (p : Product) (hp : p ∈ ps)
    (hnd : (ps.map Product.name).Nodup) :
    ((∃ m ∈ (validateInput ps gc objs choice).criticalErrors,
        m.aboutManHoursOf p.name = true) ↔
      (p.totalManHoursMax > 0 ∧
        p.totalManHoursMax < p.manHourPerUnitMin * p.demandMin)) ∧
    ((∃ m ∈ (validateInput ps gc objs choice).warnings,
        m.aboutManHoursOf p.name = true) ↔
      (¬ (∃ m ∈ (validateInput ps gc objs choice).criticalErrors,
          m.aboutManHoursOf p.name = true) ∧
        p.totalManHoursMax > p.manHourPerUnitMax * p.demandMax)) ∧
    (p.totalManHoursMax = 0 →
      ∀ m ∈ (validateInput ps gc objs choice).criticalErrors,
        m.aboutManHoursOf p.name = false) ∧
    (∀ f : Product → ℚ,
      validateInput (ps.map (fun q => { q with totalManHoursMin := f q })) gc objs choice =
        validateInput ps gc objs choice) := by
  have hc := (exists_manHours_critical ps gc objs choice p.name).trans
    (exists_named_iff ps hnd p hp _)
  have hw := (exists_manHours_warning ps gc objs choice p.name).trans
    (exists_named_iff ps hnd p hp _)
  refine ⟨hc, ?_, ?_, ?_⟩
  · rw [hw, hc]
  · intro h0 m hm
    by_contra hne
    have hb : m.aboutManHoursOf p.name = true := by simpa using hne
    have := (hc.mp ⟨m, hm, hb⟩).1
    rw [h0] at this
    exact lt_irrefl _ this
  · intro f
    unfold validateInput
    rw [collectDiagnostics_totalManHoursMin]

/-- C5, at an input: the cautious Widget declares a man-hours maximum of 500
above the realistic 400, so a man-hours warning of it is emitted. -/
theorem labor_check_classification_witness :
    (cautiousWidget ∈ [cautiousWidget] ∧ ([cautiousWidget].map Product.name).Nodup) ∧
      ((∃ m ∈ (validateInput [cautiousWidget] widgetGlobal [maximizeProfit] 'y').warnings,
          m.aboutManHoursOf cautiousWidget.name = true) ↔
        (¬ (∃ m ∈ (validateInput [cautiousWidget] widgetGlobal [maximizeProfit]
              'y').criticalErrors,
            m.aboutManHoursOf cautiousWidget.name = true) ∧
          cautiousWidget.totalManHoursMax >
            cautiousWidget.manHourPerUnitMax * cautiousWidget.demandMax)) :=
  ⟨⟨by simp, by simp⟩,
    (labor_check_classification [cautiousWidget] widgetGlobal [maximizeProfit] 'y'
      cautiousWidget (by simp) (by simp)).2.1⟩

/-! ## Lemmas on the objectives loop -/

theorem weightStep_weightProfit (w : Weights) (o : Objective) :
    (weightStep w o).weightProfit =
      if o.name = "profit" ∧ o.type = "maximize" then 1 / (o.rank : ℚ)
      else w.weightProfit := by
  unfold weightStep
  split_ifs <;> rfl

theorem weightStep_weightResource (w : Weights) (o : Objective) :
    (weightStep w o).weightResource =
      if o.name = "resource_usage" ∧ o.type = "minimize" then 1 / (o.rank : ℚ)
      else w.weightResource := by
  unfold weightStep
  split_ifs <;> first | rfl | (exfalso; simp_all)

theorem weightStep_weightBudget (w : Weights) (o : Objective) :
    (weightStep w o).weightBudget =
      if o.name = "budget_usage" ∧ o.type = "maximize" then 1 / (o.rank : ℚ)
      else w.weightBudget := by
  unfold weightStep
  split_ifs <;> first | rfl | (exfalso; simp_all)

/-- A component of the weights that one step of the loop either overwrites
with `1 / rank`, when the objective satisfies `P`, or leaves alone, keeps its
value over a list with no objective satisfying `P`. -/
theorem foldl_weightStep_absent (π : Weights → ℚ) (P : Objective → Prop)
    [DecidablePred P]
    (hstep : ∀ w o, π (weightStep w o) = if P o then 1 / (o.rank : ℚ) else π w)
    (objs : List Objective) (w : Weights) (habs : ∀ o ∈ objs, ¬ P o) :
    π (objs.foldl weightStep w) = π w := by
  induction objs generalizing w with
  | nil => rfl
  | cons a rest ih =>
    rw [List.foldl_cons, ih _ (fun o ho => habs o (List.mem_cons_of_mem _ ho)), hstep,
      if_neg (habs a (List.mem_cons_self _ _))]

/-- Such a component is `1 / rank` of the one objective satisfying `P`, when
the list holds at most one. -/
theorem foldl_weightStep_present (π : Weights → ℚ) (P : Objective → Prop)
    [DecidablePred P]
    (hstep : ∀ w o, π (weightStep w o) = if P o then 1 / (o.rank : ℚ) else π w)
    (objs : List Objective) (w : Weights)
    (hone : objs.countP (fun o => decide (P o)) ≤ 1)
    (o : Objective) (ho : o ∈ objs) (hP : P o) :
    π (objs.foldl weightStep w) = 1 / (o.rank : ℚ) := by
  induction objs generalizing w with
  | nil => simp at ho
  | cons a rest ih =>
    rw [List.foldl_cons]
    by_cases ha : P a
    · rw [List.countP_cons_of_pos _ _ (by simpa using ha)] at hone
      have hzero : rest.countP (fun o => decide (P o)) = 0 := by omega
      have habs : ∀ b ∈ rest, ¬ P b := by
        intro b hb
        have := List.countP_eq_zero.mp hzero b hb
        simpa using this
      have hoa : o = a := by
        rcases List.mem_cons.mp ho with h | h
        · exact h
        · exact absurd hP (habs o h)
      rw [foldl_weightStep_absent π P hstep rest _ habs, hstep, if_pos ha, hoa]
    · rw [List.countP_cons_of_neg _ _ (by simpa using ha)] at hone
      have hor : o ∈ rest := by
        rcases List.mem_cons.mp ho with h | h
        · exact absurd (h ▸ hP) ha
        · exact h
      exact ih _ hone hor

theorem weightStep_of_not_recognised (w : Weights) (o : Objective)
    (h : recognised o = false) : weightStep w o = w := by
  unfold recognised at h
  unfold weightStep
  simp only [decide_eq_false_iff_not, not_or] at h
  rw [if_neg h.1, if_neg h.2.1, if_neg h.2.2]

theorem foldl_weightStep_filter (objs : List Objective) (w : Weights) :
    (objs.filter recognised).foldl weightStep w = objs.foldl weightStep w := by
  induction objs generalizing w with
  | nil => rfl
  | cons a rest ih =>
    by_cases ha : recognised a = true
    · rw [List.filter_cons_of_pos ha, List.foldl_cons, List.foldl_cons, ih]
    · have hf : recognised a = false := by simpa using ha
      rw [List.filter_cons_of_neg ha, List.foldl_cons, weightStep_of_not_recognised w a hf,
        ih]

/-! ## C6: the weights are the inverse ranks -/

/-- C6. For a list of objectives with positive ranks that holds at most one
entry for each recognised pair, each weight is `1 / rank` of the entry with
its pair, (profit, maximize) for `weightProfit`, (resource_usage, minimize)
for `weightResource`, (budget_usage, maximize) for `weightBudget`, and is 0
when the list has no such entry. -/
theorem weights_are_inverse_ranks (objs : List Objective)
    (_hpos : ∀ o ∈ objs, 0 < o.rank)
    (hp : objs.countP (fun o => decide (o.name = "profit" ∧ o.type = "maximize")) ≤ 1)
    (hr : objs.countP
      (fun o => decide (o.name = "resource_usage" ∧ o.type = "minimize")) ≤ 1)
    (hb : objs.countP
      (fun o => decide (o.name = "budget_usage" ∧ o.type = "maximize")) ≤ 1) :
    ((∀ o ∈ objs, o.name = "profit" ∧ o.type = "maximize" →
        (computeWeights objs).weightProfit = 1 / (o.rank : ℚ)) ∧
      ((∀ o ∈ objs, ¬ (o.name = "profit" ∧ o.type = "maximize")) →
        (computeWeights objs).weightProfit = 0)) ∧
    ((∀ o ∈ objs, o.name = "resource_usage" ∧ o.type = "minimize" →
        (computeWeights objs).weightResource = 1 / (o.rank : ℚ)) ∧
      ((∀ o ∈ objs, ¬ (o.name = "resource_usage" ∧ o.type = "minimize")) →
        (computeWeights objs).weightResource = 0)) ∧
    ((∀ o ∈ objs, o.name = "budget_usage" ∧ o.type = "maximize" →
        (computeWeights objs).weightBudget = 1 / (o.rank : ℚ)) ∧
      ((∀ o ∈ objs, ¬ (o.name = "budget_usage" ∧ o.type = "maximize")) →
        (computeWeights objs).weightBudget = 0)) := by
  unfold computeWeights
  refine ⟨⟨fun o ho hP => ?_, fun habs => ?_⟩, ⟨fun o ho hP => ?_, fun habs => ?_⟩,
    ⟨fun o ho hP => ?_, fun habs => ?_⟩⟩
  · exact foldl_weightStep_present Weights.weightProfit _ weightStep_weightProfit objs _
      hp o ho hP
  · exact foldl_weightStep_absent Weights.weightProfit _ weightStep_weightProfit objs _ habs
  · exact foldl_weightStep_present Weights.weightResource _ weightStep_weightResource objs _
      hr o ho hP
  · exact foldl_weightStep_absent Weights.weightResource _ weightStep_weightResource objs _
      habs
  · exact foldl_weightStep_present Weights.weightBudget _ weightStep_weightBudget objs _
      hb o ho hP
  · exact foldl_weightStep_absent Weights.weightBudget _ weightStep_weightBudget objs _ habs

/-- C6, at an input: for the objectives `maximize_profit = 1` and
`minimize_resource_usage = 2` the hypotheses hold, and the profit weight is
`1 / 1`, the resource weight `1 / 2`, the budget weight 0. -/
theorem weights_are_inverse_ranks_witness :
    (computeWeights [maximizeProfit, minimizeResourceUsage]).weightProfit = 1 / ((1 : Int) : ℚ) ∧
      (computeWeights [maximizeProfit, minimizeResourceUsage]).weightResource =
        1 / ((2 : Int) : ℚ) ∧
      (computeWeights [maximizeProfit, minimizeResourceUsage]).weightBudget = 0 :=
  have h := weights_are_inverse_ranks [maximizeProfit, minimizeResourceUsage]
    (by simp [maximizeProfit, minimizeResourceUsage])
    (by simp [maximizeProfit, minimizeResourceUsage, List.countP_cons])
    (by simp [maximizeProfit, minimizeResourceUsage, List.countP_cons])
    (by simp [maximizeProfit, minimizeResourceUsage, List.countP_cons])
  ⟨h.1.1 maximizeProfit (by simp) (by simp [maximizeProfit]),
    h.2.1.1 minimizeResourceUsage (by simp) (by simp [minimizeResourceUsage]),
    h.2.2.2 (by simp [maximizeProfit, minimizeResourceUsage])⟩

/-! ## C7: objectives outside the three pairs contribute nothing -/

/-- C7. Removing from the objectives every entry whose (name, type) pair is
not one of the three recognised ones leaves the three weights unchanged, and
with them the model `defineObjectiveFunction` produces; an entry
(profit, minimize) or (revenue, maximize), of any rank, is such an entry and
leaves the weights as they are. -/
theorem unrecognised_objectives_ignored (s : Solver) (w : Weights) (r : Int) :
    computeWeights (s.objectives.filter recognised) = computeWeights s.objectives ∧
      defineObjectiveFunction { s with objectives := s.objectives.filter recognised } =
        { defineObjectiveFunction s with objectives := s.objectives.filter recognised } ∧
      (defineObjectiveFunction { s with objectives := s.objectives.filter recognised }).model =
        (defineObjectiveFunction s).model ∧
      weightStep w ⟨"profit", "minimize", r⟩ = w ∧
      weightStep w ⟨"revenue", "maximize", r⟩ = w := by
  have hw : computeWeights (s.objectives.filter recognised) = computeWeights s.objectives :=
    foldl_weightStep_filter s.objectives _
  refine ⟨hw, ?_, ?_, ?_, ?_⟩
  · unfold defineObjectiveFunction
    simp only [hw]
  · unfold defineObjectiveFunction
    simp only [hw]
  · exact weightStep_of_not_recognised w _ (by simp [recognised])
  · exact weightStep_of_not_recognised w _ (by simp [recognised])

/-! ## C8: a lower rank gives a higher weight -/

theorem inverse_rank_antitone (r1 r2 : Int) (h1 : 1 ≤ r1) (h12 : r1 ≤ r2) :
    1 / (r2 : ℚ) ≤ 1 / (r1 : ℚ) ∧ (r1 < r2 → 1 / (r2 : ℚ) < 1 / (r1 : ℚ)) := by
  have hpos : (0 : ℚ) < (r1 : ℚ) := by exact_mod_cast (by omega : 0 < r1)
  have hle : (r1 : ℚ) ≤ (r2 : ℚ) := by exact_mod_cast h12
  refine ⟨one_div_le_one_div_of_le hpos hle, fun hlt => ?_⟩
  have hlt2 : (r1 : ℚ) < (r2 : ℚ) := by exact_mod_cast hlt
  exact one_div_lt_one_div_of_lt hpos hlt2

/-- C8. For integer ranks `1 ≤ r1 ≤ r2` and each of the three recognised
pairs, the weight the objectives loop computes from an entry of rank `r1`
(after any earlier entries) is at least the weight it computes from an entry
of rank `r2`, and strictly greater when `r1 < r2`. -/
theorem weight_monotone_in_rank (objs : List Objective) (r1 r2 : Int) (h1 : 1 ≤ r1)
    (h12 : r1 ≤ r2) :
    ((computeWeights (objs ++ [⟨"profit", "maximize", r2⟩])).weightProfit ≤
        (computeWeights (objs ++ [⟨"profit", "maximize", r1⟩])).weightProfit ∧
      (r1 < r2 →
        (computeWeights (objs ++ [⟨"profit", "maximize", r2⟩])).weightProfit <
          (computeWeights (objs ++ [⟨"profit", "maximize", r1⟩])).weightProfit)) ∧
    ((computeWeights (objs ++ [⟨"resource_usage", "minimize", r2⟩])).weightResource ≤
        (computeWeights (objs ++ [⟨"resource_usage", "minimize", r1⟩])).weightResource ∧
      (r1 < r2 →
        (computeWeights (objs ++ [⟨"resource_usage", "minimize", r2⟩])).weightResource <
          (computeWeights (objs ++ [⟨"resource_usage", "minimize", r1⟩])).weightResource)) ∧
    ((computeWeights (objs ++ [⟨"budget_usage", "maximize", r2⟩])).weightBudget ≤
        (computeWeights (objs ++ [⟨"budget_usage", "maximize", r1⟩])).weightBudget ∧
      (r1 < r2 →
        (computeWeights (objs ++ [⟨"budget_usage", "maximize", r2⟩])).weightBudget <
          (computeWeights (objs ++ [⟨"budget_usage", "maximize", r1⟩])).weightBudget)) := by
  have h := inverse_rank_antitone r1 r2 h1 h12
  unfold computeWeights
  simp only [List.foldl_append, List.foldl_cons, List.foldl_nil, weightStep_weightProfit,
    weightStep_weightResource, weightStep_weightBudget, and_self, if_true]
  -- the three components reduce to the same inequality pair
  exact h

/-- C8, at an input: ranks 1 and 2 for (profit, maximize) give the weights 1
and 1/2, and 1/2 is strictly below 1. -/
theorem weight_monotone_in_rank_witness :
    ((1 : Int) ≤ 1 ∧ (1 : Int) ≤ 2) ∧
      (computeWeights ([] ++ [⟨"profit", "maximize", 2⟩])).weightProfit <
        (computeWeights ([] ++ [⟨"profit", "maximize", 1⟩])).weightProfit :=
  ⟨⟨by decide, by decide⟩,
    (weight_monotone_in_rank [] 1 2 (by decide) (by decide)).1.2 (by decide)⟩

/-! ## Lemmas on the model-building loops -/

theorem take_set_self (l : List ℚ) (k : Nat) (v : ℚ) :
    (l.set k v).take k = l.take k := by
  induction l generalizing k with
  | nil => simp
  | cons a l ih =>
    cases k with
    | zero => simp
    | succ k => simp [ih]

theorem take_succ_set (l : List ℚ) (k : Nat) (v : ℚ) (h : k < l.length) :
    (l.set k v).take (k + 1) = l.take k ++ [v] := by
  rw [List.take_succ, take_set_self]
  simp [List.getElem?_set, h]

theorem getD_set_self (l : List ℚ) (k : Nat) (v : ℚ) (h : k < l.length) :
    (l.set k v).getD k 0 = v := by
  simp [List.getD_eq_getElem?_getD, List.getElem?_set, h]

theorem foldl_setupModelStep (ps : List Product) (s : Solver) (k : Nat)
    (h1 : s.avgCosts.length = k + ps.length)
    (h2 : s.avgManHours.length = k + ps.length)
    (h3 : s.objectiveCoefficients.length = k + ps.length)
    (h4 : s.lowerBounds.length = k + ps.length)
    (h5 : s.upperBounds.length = k + ps.length)
    (h6 : s.model.columnLower.length = k + ps.length)
    (h7 : s.model.columnUpper.length = k + ps.length) :
    ps.foldl setupModelStep (s, k) =
      ({ s with
          model := { s.model with
            columnLower := s.model.columnLower.take k ++ ps.map (fun p => p.demandMin)
            columnUpper := s.model.columnUpper.take k ++ ps.map (fun p => p.demandMax) }
          objectiveCoefficients := s.objectiveCoefficients.take k ++
            ps.map (fun p =>
              (p.costMin + p.costMax) / 2 * ((p.profitMin + p.profitMax) / 200))
          lowerBounds := s.lowerBounds.take k ++ ps.map (fun p => p.demandMin)
          upperBounds := s.upperBounds.take k ++ ps.map (fun p => p.demandMax)
          avgCosts := s.avgCosts.take k ++ ps.map (fun p => (p.costMin + p.costMax) / 2)
          avgManHours := s.avgManHours.take k ++
            ps.map (fun p => (p.manHourPerUnitMin + p.manHourPerUnitMax) / 2) },
        k + ps.length) := by
  induction ps generalizing s k with
  | nil =>
    obtain ⟨products, gc, objs, ⟨cl, cu, ob, rows, dir, act⟩, oc, lb, ub, ac, am⟩ := s
    simp only [List.length_nil, Nat.add_zero] at h1 h2 h3 h4 h5 h6 h7
    simp [List.take_of_length_le, h1, h2, h3, h4, h5, h6, h7]
  | cons p rest ih =>
    obtain ⟨products, gc, objs, ⟨cl, cu, ob, rows, dir, act⟩, oc, lb, ub, ac, am⟩ := s
    simp only [List.length_cons] at h1 h2 h3 h4 h5 h6 h7
    rw [List.foldl_cons]
    have hk1 : k < ac.length := by omega
    have hk2 : k < am.length := by omega
    have hk3 : k < oc.length := by omega
    have hk4 : k < lb.length := by omega
    have hk5 : k < ub.length := by omega
    have hk6 : k < cl.length := by omega
    have hk7 : k < cu.length := by omega
    simp only [setupModelStep, ClpSimplex.setColumnLower, ClpSimplex.setColumnUpper]
    rw [ih _ (k + 1) (by simp; omega) (by simp; omega) (by simp; omega) (by simp; omega)
      (by simp; omega) (by simp; omega) (by simp; omega)]
    simp only [take_succ_set _ _ _ hk1, take_succ_set _ _ _ hk2, take_succ_set _ _ _ hk3,
      take_succ_set _ _ _ hk4, take_succ_set _ _ _ hk5, take_succ_set _ _ _ hk6,
      take_succ_set _ _ _ hk7, getD_set_self _ _ _ hk1, getD_set_self _ _ _ hk4,
      getD_set_self _ _ _ hk5, List.append_assoc, List.singleton_append, List.map_cons,
      List.length_cons]
    congr 1
    omega

theorem length_vectorResize (v : List ℚ) (n : Nat) (x : ℚ) :
    (vectorResize v n x).length = n := by
  unfold vectorResize
  simp
  omega

theorem setupModel_eq (s : Solver) :
    setupModel s =
      { s with
        model := { s.model.resize s.products.length with
          columnLower := s.products.map (fun p => p.demandMin)
          columnUpper := s.products.map (fun p => p.demandMax) }
        objectiveCoefficients := s.products.map (fun p =>
          (p.costMin + p.costMax) / 2 * ((p.profitMin + p.profitMax) / 200))
        lowerBounds := s.products.map (fun p => p.demandMin)
        upperBounds := s.products.map (fun p => p.demandMax)
        avgCosts := s.products.map (fun p => (p.costMin + p.costMax) / 2)
        avgManHours := s.products.map (fun p =>
          (p.manHourPerUnitMin + p.manHourPerUnitMax) / 2) } := by
  unfold setupModel
  dsimp only
  rw [foldl_setupModelStep _ _ 0 (by simp [length_vectorResize])
    (by simp [length_vectorResize]) (by simp [length_vectorResize])
    (by simp [length_vectorResize]) (by simp [length_vectorResize])
    (by simp [ClpSimplex.resize]; omega) (by simp [ClpSimplex.resize]; omega)]
  simp [ClpSimplex.resize]

theorem foldl_applyConstraintsStep_rows (ps : List Product) (s : Solver) (k : Nat) :
    ∃ rows, ps.foldl applyConstraintsStep (s, k) =
      ({ s with model := { s.model with rows := rows } }, k + ps.length) := by
  induction ps generalizing s k with
  | nil => exact ⟨s.model.rows, rfl⟩
  | cons p rest ih =>
    rw [List.foldl_cons]
    obtain ⟨rows, hrows⟩ := ih (applyConstraintsStep (s, k) p).1 (k + 1)
    refine ⟨rows, ?_⟩
    have hstep : applyConstraintsStep (s, k) p = ((applyConstraintsStep (s, k) p).1, k + 1) :=
      rfl
    rw [hstep, hrows]
    simp [applyConstraintsStep, ClpSimplex.addRow]
    omega

theorem applyConstraints_rows (s : Solver) :
    ∃ rows, applyConstraints s = { s with model := { s.model with rows := rows } } := by
  unfold applyConstraints
  obtain ⟨rows, hrows⟩ := foldl_applyConstraintsStep_rows s.products s 0
  rw [hrows]
  exact ⟨_, rfl⟩

theorem foldl_setObjectiveCoefficient (g : Nat → ℚ) (idxs : List Nat) (m : ClpSimplex) :
    idxs.foldl (fun (m : ClpSimplex) (i : Nat) => m.setObjectiveCoefficient i (g i)) m =
      { m with
        objective :=
          (idxs.foldl (fun (l : List ℚ) (i : Nat) => l.set i (g i)) m.objective) } := by
  induction idxs generalizing m with
  | nil => rfl
  | cons i rest ih =>
    rw [List.foldl_cons, List.foldl_cons, ih]
    rfl

theorem foldl_set_range_le (g : Nat → ℚ) (l : List ℚ) (k : Nat) (hk : k ≤ l.length) :
    (List.range k).foldl (fun (l : List ℚ) (i : Nat) => l.set i (g i)) l =
      (List.range k).map g ++ l.drop k := by
  induction k with
  | zero => simp
  | succ k ih =>
    have hlt : k < l.length := by omega
    rw [List.range_succ, List.foldl_append, ih (by omega), List.foldl_cons, List.foldl_nil,
      List.set_append, if_neg (by simp), List.map_append, List.drop_eq_getElem_cons hlt]
    simp only [List.length_map, List.length_range, Nat.sub_self, List.set_cons_zero,
      List.append_assoc, List.singleton_append, List.map_cons, List.map_nil]

theorem foldl_set_range (g : Nat → ℚ) (l : List ℚ) :
    (List.range l.length).foldl (fun (l : List ℚ) (i : Nat) => l.set i (g i)) l =
      (List.range l.length).map g := by
  rw [foldl_set_range_le g l l.length (le_refl _)]
  simp

theorem map_range_getD (ps : List Product) (f1 f2 f3 : Product → ℚ) (F : ℚ → ℚ → ℚ → ℚ) :
    (List.range ps.length).map (fun i =>
        F ((ps.map f1).getD i 0) ((ps.map f2).getD i 0) ((ps.map f3).getD i 0)) =
      ps.map (fun p => F (f1 p) (f2 p) (f3 p)) := by
  apply List.ext_getElem
  · simp
  · intro i h1 h2
    have hi : i < ps.length := by simpa using h1
    simp [List.getD_eq_getElem?_getD, hi]

theorem defineObjectiveFunction_objective (s : Solver)
    (hlen : s.model.objective.length = s.objectiveCoefficients.length) :
    (defineObjectiveFunction s).model.objective =
      (List.range s.objectiveCoefficients.length).map (fun i =>
        (computeWeights s.objectives).weightProfit * s.objectiveCoefficients.getD i 0 -
          (computeWeights s.objectives).weightResource * s.avgManHours.getD i 0 +
          (computeWeights s.objectives).weightBudget * s.avgCosts.getD i 0) := by
  unfold defineObjectiveFunction
  dsimp only
  rw [foldl_setObjectiveCoefficient]
  simp only [ClpSimplex.setOptimizationDirection]
  rw [← hlen, foldl_set_range]

theorem built_objective (s : Solver) :
    (defineObjectiveFunction (applyConstraints (setupModel s))).model.objective =
      s.products.map (fun p =>
        (computeWeights s.objectives).weightProfit *
            ((p.costMin + p.costMax) / 2 * ((p.profitMin + p.profitMax) / 200)) -
          (computeWeights s.objectives).weightResource *
            ((p.manHourPerUnitMin + p.manHourPerUnitMax) / 2) +
          (computeWeights s.objectives).weightBudget * ((p.costMin + p.costMax) / 2)) := by
  obtain ⟨rows, hrows⟩ := applyConstraints_rows (setupModel s)
  rw [hrows, defineObjectiveFunction_objective, setupModel_eq]
  · simp only [List.length_map]
    exact map_range_getD s.products
      (fun p => (p.costMin + p.costMax) / 2 * ((p.profitMin + p.profitMax) / 200))
      (fun p => (p.manHourPerUnitMin + p.manHourPerUnitMax) / 2)
      (fun p => (p.costMin + p.costMax) / 2)
      (fun a b c => (computeWeights s.objectives).weightProfit * a -
        (computeWeights s.objectives).weightResource * b +
        (computeWeights s.objectives).weightBudget * c)
  · rw [setupModel_eq]
    simp [ClpSimplex.resize]
    omega

/-! ## C9: the objective coefficient of each decision variable -/

/-- C9. The objective vector the Model Builder leaves in the model, after
`setupModel`, `applyConstraints` and `defineObjectiveFunction`, holds for the
i-th product of the sequence, at position i, the value
`weightProfit * (avgCost * avgProfitFraction) - weightResource * avgManHour +
weightBudget * avgCost` with `avgCost = (costMin + costMax) / 2`,
`avgProfitFraction = (profitMin + profitMax) / 200` and
`avgManHour = (manHourPerUnitMin + manHourPerUnitMax) / 2` of that product;
this is also the objective of the model `solve` ends with. -/
theorem objective_coefficients (s : Solver) (primal : ClpSimplex → Int × List ℚ) :
    (defineObjectiveFunction (applyConstraints (setupModel s))).model.objective =
        s.products.map (fun p =>
          (computeWeights s.objectives).weightProfit *
              ((p.costMin + p.costMax) / 2 * ((p.profitMin + p.profitMax) / 200)) -
            (computeWeights s.objectives).weightResource *
              ((p.manHourPerUnitMin + p.manHourPerUnitMax) / 2) +
            (computeWeights s.objectives).weightBudget * ((p.costMin + p.costMax) / 2)) ∧
      (solve s primal).solver.model.objective =
        (defineObjectiveFunction (applyConstraints (setupModel s))).model.objective :=
  ⟨built_objective s, rfl⟩

/-! ## C10: the optimization direction handed to the solver -/

/-- C10. The direction `defineObjectiveFunction` passes to
`setOptimizationDirection` is 1 for every solver state, which in the
convention of `ClpSimplex` denotes minimize, not maximize; so it is in the
model of the Widget scenario, and in the model `solve` ends with. -/
theorem optimization_direction_is_minimize :
    (∀ s : Solver,
      (defineObjectiveFunction s).model.optimizationDirection = 1 ∧
        clpSense (defineObjectiveFunction s).model.optimizationDirection =
          some Sense.minimize) ∧
    (∀ (s : Solver) (primal : ClpSimplex → Int × List ℚ),
      clpSense (solve s primal).solver.model.optimizationDirection ≠ some Sense.maximize) ∧
    clpSense (defineObjectiveFunction (applyConstraints (setupModel
      (Solver.new [widget] widgetGlobal [maximizeProfit])))).model.optimizationDirection =
        some Sense.minimize := by
  have h : ∀ s : Solver, (defineObjectiveFunction s).model.optimizationDirection = 1 :=
    fun s => rfl
  have hs : clpSense 1 = some Sense.minimize := by
    unfold clpSense
    norm_num
  refine ⟨fun s => ⟨h s, by rw [h s, hs]⟩, fun s primal => ?_, by rw [h, hs]⟩
  have : (solve s primal).solver.model.optimizationDirection = 1 := rfl
  rw [this, hs]
  simp

/-! ## Lemmas on the constraint rows -/

theorem foldl_applyConstraintsStep_eq (ps : List Product) (s : Solver) (k : Nat)
    (fc fm : Product → ℚ)
    (hc : ∀ j p, ps[j]? = some p → s.avgCosts.getD (k + j) 0 = fc p)
    (hm : ∀ j p, ps[j]? = some p → s.avgManHours.getD (k + j) 0 = fm p) :
    ps.foldl applyConstraintsStep (s, k) =
      ({ s with model := { s.model with rows := (s.model.rows ++
          (List.enumFrom k ps).flatMap (fun ip =>
            [⟨[ip.1], [fc ip.2], ip.2.budgetMin, ip.2.budgetMax⟩,
              ⟨[ip.1], [fm ip.2], 0, ip.2.totalManHoursMax⟩])) } },
        k + ps.length) := by
  induction ps generalizing s k with
  | nil => simp
  | cons q rest ih =>
    have h0c := hc 0 q (by simp)
    have h0m := hm 0 q (by simp)
    simp only [Nat.add_zero, List.getD_eq_getElem?_getD] at h0c h0m
    rw [List.foldl_cons]
    have hstep : applyConstraintsStep (s, k) q =
        ({ s with model := { s.model with rows := s.model.rows ++
            [⟨[k], [fc q], q.budgetMin, q.budgetMax⟩,
              ⟨[k], [fm q], 0, q.totalManHoursMax⟩] } }, k + 1) := by
      simp [applyConstraintsStep, ClpSimplex.addRow, h0c, h0m]
    rw [hstep, ih _ (k + 1)
      (fun j p hj => by
        have := hc (j + 1) p (by simpa using hj)
        rw [← this]
        congr 1
        omega)
      (fun j p hj => by
        have := hm (j + 1) p (by simpa using hj)
        rw [← this]
        congr 1
        omega)]
    simp only [List.enumFrom_cons, List.flatMap_cons, List.append_assoc, List.length_cons,
      List.cons_append, List.nil_append]
    congr 1
    omega

theorem getD_map_of_getElem? (ps : List Product) (f : Product → ℚ) (j : Nat) (p : Product)
    (hj : ps[j]? = some p) : (ps.map f).getD (0 + j) 0 = f p := by
  simp [List.getD_eq_getElem?_getD, List.getElem?_map, hj]

theorem applyConstraints_setupModel_rows (s : Solver) :
    (applyConstraints (setupModel s)).model.rows =
      (List.enumFrom 0 s.products).flatMap (fun ip =>
        [⟨[ip.1], [(ip.2.costMin + ip.2.costMax) / 2], ip.2.budgetMin, ip.2.budgetMax⟩,
          ⟨[ip.1], [(ip.2.manHourPerUnitMin + ip.2.manHourPerUnitMax) / 2], 0,
            ip.2.totalManHoursMax⟩]) ++
      [⟨List.range s.products.length,
          s.products.map (fun p => (p.costMin + p.costMax) / 2),
          s.globalConstraints.budgetMin, s.globalConstraints.budgetMax⟩,
        ⟨List.range s.products.length,
          s.products.map (fun p => (p.manHourPerUnitMin + p.manHourPerUnitMax) / 2),
          0, s.globalConstraints.manHoursMax⟩] := by
  unfold applyConstraints
  rw [setupModel_eq]
  dsimp only
  rw [foldl_applyConstraintsStep_eq _ _ 0 (fun p => (p.costMin + p.costMax) / 2)
    (fun p => (p.manHourPerUnitMin + p.manHourPerUnitMax) / 2)
    (fun j p hj => getD_map_of_getElem? _ _ j p hj)
    (fun j p hj => getD_map_of_getElem? _ _ j p hj)]
  simp [ClpSimplex.addRow, ClpSimplex.resize, List.take_of_length_le]

theorem applyConstraints_setupModel_bounds (s : Solver) :
    (applyConstraints (setupModel s)).model.columnLower =
        s.products.map (fun p => p.demandMin) ∧
      (applyConstraints (setupModel s)).model.columnUpper =
        s.products.map (fun p => p.demandMax) := by
  obtain ⟨rows, hrows⟩ := applyConstraints_rows (setupModel s)
  rw [hrows, setupModel_eq]
  exact ⟨rfl, rfl⟩

theorem defineObjectiveFunction_keeps (s : Solver) :
    (defineObjectiveFunction s).model.rows = s.model.rows ∧
      (defineObjectiveFunction s).model.columnLower = s.model.columnLower ∧
      (defineObjectiveFunction s).model.columnUpper = s.model.columnUpper ∧
      (defineObjectiveFunction s).avgCosts = s.avgCosts ∧
      (defineObjectiveFunction s).avgManHours = s.avgManHours ∧
      (defineObjectiveFunction s).products = s.products ∧
      (defineObjectiveFunction s).globalConstraints = s.globalConstraints := by
  unfold defineObjectiveFunction
  dsimp only
  rw [foldl_setObjectiveCoefficient]
  exact ⟨rfl, rfl, rfl, rfl, rfl, rfl, rfl⟩

theorem length_pairRows {α : Type} (A B : Nat → α → Row) (ps : List α) (k : Nat) :
    ((List.enumFrom k ps).flatMap (fun ip => [A ip.1 ip.2, B ip.1 ip.2])).length =
      2 * ps.length := by
  induction ps generalizing k with
  | nil => rfl
  | cons q rest ih =>
    simp only [List.enumFrom_cons, List.flatMap_cons, List.length_append, List.length_cons,
      List.length_nil, ih]
    omega

theorem getElem?_pairRows {α : Type} (A B : Nat → α → Row) (ps : List α) (k i : Nat)
    (p : α) (hp : ps[i]? = some p) :
    ((List.enumFrom k ps).flatMap (fun ip => [A ip.1 ip.2, B ip.1 ip.2]))[2 * i]? =
        some (A (k + i) p) ∧
      ((List.enumFrom k ps).flatMap (fun ip => [A ip.1 ip.2, B ip.1 ip.2]))[2 * i + 1]? =
        some (B (k + i) p) := by
  induction ps generalizing k i with
  | nil => simp at hp
  | cons q rest ih =>
    simp only [List.enumFrom_cons, List.flatMap_cons, List.cons_append, List.nil_append]
    cases i with
    | zero =>
      simp only [List.getElem?_cons_zero, Option.some.injEq] at hp
      subst hp
      simp
    | succ j =>
      have hj : rest[j]? = some p := by simpa using hp
      have h := ih (k + 1) j hj
      have e1 : 2 * (j + 1) = (2 * j + 1) + 1 := by omega
      have e3 : k + 1 + j = k + (j + 1) := by omega
      rw [e1, List.getElem?_cons_succ, List.getElem?_cons_succ,
        List.getElem?_cons_succ, List.getElem?_cons_succ, ← e3]
      exact h

theorem built_rows_length (s : Solver) :
    (applyConstraints (setupModel s)).model.rows.length = 2 * s.products.length + 2 := by
  have hlen := length_pairRows
    (fun (i : Nat) (p : Product) =>
      (⟨[i], [(p.costMin + p.costMax) / 2], p.budgetMin, p.budgetMax⟩ : Row))
    (fun (i : Nat) (p : Product) =>
      (⟨[i], [(p.manHourPerUnitMin + p.manHourPerUnitMax) / 2], 0,
        p.totalManHoursMax⟩ : Row))
    s.products 0
  rw [applyConstraints_setupModel_rows, List.length_append, hlen]
  rfl

theorem built_rows_at (s : Solver) :
    (∀ (i : Nat) (p : Product), s.products[i]? = some p →
      (applyConstraints (setupModel s)).model.rows[2 * i]? =
          some ⟨[i], [(p.costMin + p.costMax) / 2], p.budgetMin, p.budgetMax⟩ ∧
        (applyConstraints (setupModel s)).model.rows[2 * i + 1]? =
          some ⟨[i], [(p.manHourPerUnitMin + p.manHourPerUnitMax) / 2], 0,
            p.totalManHoursMax⟩) ∧
    ((applyConstraints (setupModel s)).model.rows[2 * s.products.length]? =
        some ⟨List.range s.products.length,
          s.products.map (fun p => (p.costMin + p.costMax) / 2),
          s.globalConstraints.budgetMin, s.globalConstraints.budgetMax⟩ ∧
      (applyConstraints (setupModel s)).model.rows[2 * s.products.length + 1]? =
        some ⟨List.range s.products.length,
          s.products.map (fun p => (p.manHourPerUnitMin + p.manHourPerUnitMax) / 2),
          0, s.globalConstraints.manHoursMax⟩) := by
  have hlen := length_pairRows
    (fun (i : Nat) (p : Product) =>
      (⟨[i], [(p.costMin + p.costMax) / 2], p.budgetMin, p.budgetMax⟩ : Row))
    (fun (i : Nat) (p : Product) =>
      (⟨[i], [(p.manHourPerUnitMin + p.manHourPerUnitMax) / 2], 0,
        p.totalManHoursMax⟩ : Row))
    s.products 0
  refine ⟨?_, ?_, ?_⟩
  · intro i p hp
    have hi : i < s.products.length := by
      by_contra hge
      rw [List.getElem?_eq_none (by omega)] at hp
      exact absurd hp (by simp)
    have h := getElem?_pairRows
      (fun (i : Nat) (p : Product) =>
        (⟨[i], [(p.costMin + p.costMax) / 2], p.budgetMin, p.budgetMax⟩ : Row))
      (fun (i : Nat) (p : Product) =>
        (⟨[i], [(p.manHourPerUnitMin + p.manHourPerUnitMax) / 2], 0,
          p.totalManHoursMax⟩ : Row))
      s.products 0 i p hp
    simp only [Nat.zero_add] at h
    rw [applyConstraints_setupModel_rows, List.getElem?_append_left (by rw [hlen]; omega),
      List.getElem?_append_left (by rw [hlen]; omega)]
    exact h
  · rw [applyConstraints_setupModel_rows, List.getElem?_append_right (by rw [hlen]), hlen]
    simp
  · rw [applyConstraints_setupModel_rows, List.getElem?_append_right (by rw [hlen]; omega),
      hlen]
    simp

/-! ## C11: the shape of the built model -/

/-- C11. For N products the model after `setupModel` and `applyConstraints`
has N columns, column i bounded by `[demandMin, demandMax]` of product i, and
`2 * N + 2` rows: row `2 * i` is the budget row of product i (the single
coefficient `avgCost` on column i, bounds `[budgetMin, budgetMax]`), row
`2 * i + 1` its labor row (the single coefficient `avgManHour` on column i,
bounds `[0, totalManHoursMax]`), row `2 * N` the global budget row (all the
`avgCost` on columns 0..N-1, bounds the global budget) and row `2 * N + 1` the
global labor row (all the `avgManHour`, bounds `[0, manHoursMax]`);
`defineObjectiveFunction` leaves rows and bounds as they are. -/
theorem built_model_shape (s : Solver) :
    ((applyConstraints (setupModel s)).model.columnLower =
        s.products.map (fun p => p.demandMin) ∧
      (applyConstraints (setupModel s)).model.columnUpper =
        s.products.map (fun p => p.demandMax) ∧
      (applyConstraints (setupModel s)).model.objective.length = s.products.length) ∧
    (applyConstraints (setupModel s)).model.rows.length = 2 * s.products.length + 2 ∧
    (∀ (i : Nat) (p : Product), s.products[i]? = some p →
      (applyConstraints (setupModel s)).model.rows[2 * i]? =
          some ⟨[i], [(p.costMin + p.costMax) / 2], p.budgetMin, p.budgetMax⟩ ∧
        (applyConstraints (setupModel s)).model.rows[2 * i + 1]? =
          some ⟨[i], [(p.manHourPerUnitMin + p.manHourPerUnitMax) / 2], 0,
            p.totalManHoursMax⟩) ∧
    ((applyConstraints (setupModel s)).model.rows[2 * s.products.length]? =
        some ⟨List.range s.products.length,
          s.products.map (fun p => (p.costMin + p.costMax) / 2),
          s.globalConstraints.budgetMin, s.globalConstraints.budgetMax⟩ ∧
      (applyConstraints (setupModel s)).model.rows[2 * s.products.length + 1]? =
        some ⟨List.range s.products.length,
          s.products.map (fun p => (p.manHourPerUnitMin + p.manHourPerUnitMax) / 2),
          0, s.globalConstraints.manHoursMax⟩) ∧
    ((defineObjectiveFunction (applyConstraints (setupModel s))).model.rows =
        (applyConstraints (setupModel s)).model.rows ∧
      (defineObjectiveFunction (applyConstraints (setupModel s))).model.columnLower =
        (applyConstraints (setupModel s)).model.columnLower ∧
      (defineObjectiveFunction (applyConstraints (setupModel s))).model.columnUpper =
        (applyConstraints (setupModel s)).model.columnUpper) := by
  have hb := applyConstraints_setupModel_bounds s
  have hk := defineObjectiveFunction_keeps (applyConstraints (setupModel s))
  have hr := built_rows_at s
  refine ⟨⟨hb.1, hb.2, ?_⟩, built_rows_length s, hr.1, hr.2, hk.1, hk.2.1, hk.2.2.1⟩
  obtain ⟨rows, hrows⟩ := applyConstraints_rows (setupModel s)
  rw [hrows, setupModel_eq]
  simp [ClpSimplex.resize]
  omega

/-! ## Lemmas on the solution check -/

theorem validateSolutionStep_eq (s : Solver) (sol : List ℚ) (st : CheckState) (p : Product) :
    validateSolutionStep s sol st p =
      { index := st.index + 1
        totalBudgetUsed := st.totalBudgetUsed + sol.getD st.index 0 * s.avgCosts.getD st.index 0
        totalManHoursUsed :=
          st.totalManHoursUsed + sol.getD st.index 0 * s.avgManHours.getD st.index 0
        reported := st.reported ++
          unitViolations p (sol.getD st.index 0 * s.avgCosts.getD st.index 0)
            (sol.getD st.index 0 * s.avgManHours.getD st.index 0) } := by
  unfold validateSolutionStep unitViolations
  dsimp only
  split_ifs <;> simp

theorem foldl_validateSolutionStep (ps : List Product) (s : Solver) (sol : List ℚ)
    (st : CheckState) (fc fm : Product → ℚ)
    (hc : ∀ j p, ps[j]? = some p → s.avgCosts.getD (st.index + j) 0 = fc p)
    (hm : ∀ j p, ps[j]? = some p → s.avgManHours.getD (st.index + j) 0 = fm p) :
    ps.foldl (validateSolutionStep s sol) st =
      { index := st.index + ps.length
        totalBudgetUsed := st.totalBudgetUsed +
          ((List.enumFrom st.index ps).map (fun ip => sol.getD ip.1 0 * fc ip.2)).sum
        totalManHoursUsed := st.totalManHoursUsed +
          ((List.enumFrom st.index ps).map (fun ip => sol.getD ip.1 0 * fm ip.2)).sum
        reported := st.reported ++
          (List.enumFrom st.index ps).flatMap (fun ip =>
            unitViolations ip.2 (sol.getD ip.1 0 * fc ip.2) (sol.getD ip.1 0 * fm ip.2)) } := by
  induction ps generalizing st with
  | nil => simp
  | cons q rest ih =>
    have h0c := hc 0 q (by simp)
    have h0m := hm 0 q (by simp)
    simp only [Nat.add_zero] at h0c h0m
    rw [List.foldl_cons, validateSolutionStep_eq, h0c, h0m,
      ih _
        (fun j p hj => by
          have := hc (j + 1) p (by simpa using hj)
          rw [← this]
          congr 1
          dsimp only
          omega)
        (fun j p hj => by
          have := hm (j + 1) p (by simpa using hj)
          rw [← this]
          congr 1
          dsimp only
          omega)]
    simp only [List.enumFrom_cons, List.flatMap_cons, List.map_cons, List.sum_cons,
      List.append_assoc, List.length_cons, add_assoc]
    congr 1
    omega

theorem solve_solver_fields (s : Solver) (primal : ClpSimplex → Int × List ℚ) :
    (solve s primal).solver.products = s.products ∧
      (solve s primal).solver.globalConstraints = s.globalConstraints ∧
      (solve s primal).solver.avgCosts =
        s.products.map (fun p => (p.costMin + p.costMax) / 2) ∧
      (solve s primal).solver.avgManHours =
        s.products.map (fun p => (p.manHourPerUnitMin + p.manHourPerUnitMax) / 2) ∧
      (solve s primal).solver.model.columnActivity =
        (primal (defineObjectiveFunction (applyConstraints (setupModel s))).model).2 := by
  have hk := defineObjectiveFunction_keeps (applyConstraints (setupModel s))
  obtain ⟨rows, hrows⟩ := applyConstraints_rows (setupModel s)
  have hp : (applyConstraints (setupModel s)).products = s.products := by
    rw [hrows, setupModel_eq]
  have hg : (applyConstraints (setupModel s)).globalConstraints = s.globalConstraints := by
    rw [hrows, setupModel_eq]
  have hc : (applyConstraints (setupModel s)).avgCosts =
      s.products.map (fun p => (p.costMin + p.costMax) / 2) := by
    rw [hrows, setupModel_eq]
  have hm : (applyConstraints (setupModel s)).avgManHours =
      s.products.map (fun p => (p.manHourPerUnitMin + p.manHourPerUnitMax) / 2) := by
    rw [hrows, setupModel_eq]
  refine ⟨?_, ?_, ?_, ?_, rfl⟩
  · exact hk.2.2.2.2.2.1.trans hp
  · exact hk.2.2.2.2.2.2.trans hg
  · exact hk.2.2.2.1.trans hc
  · exact hk.2.2.2.2.1.trans hm

theorem solve_solver_model (s : Solver) (primal : ClpSimplex → Int × List ℚ) :
    (solve s primal).solver.model.rows = (applyConstraints (setupModel s)).model.rows ∧
      (solve s primal).solver.model.columnLower = s.products.map (fun p => p.demandMin) ∧
      (solve s primal).solver.model.columnUpper = s.products.map (fun p => p.demandMax) := by
  have hk := defineObjectiveFunction_keeps (applyConstraints (setupModel s))
  have hb := applyConstraints_setupModel_bounds s
  exact ⟨hk.1, hk.2.1.trans hb.1, hk.2.2.1.trans hb.2⟩

/-- The violations `validateSolution` reports on a solver state whose
`avgCosts` and `avgManHours` are the ones `setupModel` computes. -/
theorem validateSolution_built (t : Solver)
    (hc : t.avgCosts = t.products.map (fun p => (p.costMin + p.costMax) / 2))
    (hm : t.avgManHours =
      t.products.map (fun p => (p.manHourPerUnitMin + p.manHourPerUnitMax) / 2)) :
    validateSolution t =
      ((List.enumFrom 0 t.products).flatMap (fun ip =>
          unitViolations ip.2
            (t.model.columnActivity.getD ip.1 0 * ((ip.2.costMin + ip.2.costMax) / 2))
            (t.model.columnActivity.getD ip.1 0 *
              ((ip.2.manHourPerUnitMin + ip.2.manHourPerUnitMax) / 2))) ++
        (if ((List.enumFrom 0 t.products).map (fun ip =>
              t.model.columnActivity.getD ip.1 0 *
                ((ip.2.costMin + ip.2.costMax) / 2))).sum > t.globalConstraints.budgetMax
          then [Violation.globalBudget] else [])) ++
        (if ((List.enumFrom 0 t.products).map (fun ip =>
              t.model.columnActivity.getD ip.1 0 *
                ((ip.2.manHourPerUnitMin + ip.2.manHourPerUnitMax) / 2))).sum >
              t.globalConstraints.manHoursMax
          then [Violation.globalManHours] else []) := by
  unfold validateSolution
  dsimp only
  rw [foldl_validateSolutionStep t.products t t.model.getColSolution ⟨0, 0, 0, []⟩
    (fun p => (p.costMin + p.costMax) / 2)
    (fun p => (p.manHourPerUnitMin + p.manHourPerUnitMax) / 2)
    (fun j p hj => by rw [hc]; exact getD_map_of_getElem? _ _ j p hj)
    (fun j p hj => by rw [hm]; exact getD_map_of_getElem? _ _ j p hj)]
  simp only [ClpSimplex.getColSolution, zero_add, List.nil_append]
  split_ifs <;> simp

theorem validateSolutionTotals_built (t : Solver)
    (hc : t.avgCosts = t.products.map (fun p => (p.costMin + p.costMax) / 2))
    (hm : t.avgManHours =
      t.products.map (fun p => (p.manHourPerUnitMin + p.manHourPerUnitMax) / 2)) :
    validateSolutionTotals t =
      (((List.enumFrom 0 t.products).map (fun ip =>
          t.model.columnActivity.getD ip.1 0 * ((ip.2.costMin + ip.2.costMax) / 2))).sum,
        ((List.enumFrom 0 t.products).map (fun ip =>
          t.model.columnActivity.getD ip.1 0 *
            ((ip.2.manHourPerUnitMin + ip.2.manHourPerUnitMax) / 2))).sum) := by
  unfold validateSolutionTotals
  dsimp only
  rw [foldl_validateSolutionStep t.products t t.model.getColSolution ⟨0, 0, 0, []⟩
    (fun p => (p.costMin + p.costMax) / 2)
    (fun p => (p.manHourPerUnitMin + p.manHourPerUnitMax) / 2)
    (fun j p hj => by rw [hc]; exact getD_map_of_getElem? _ _ j p hj)
    (fun j p hj => by rw [hm]; exact getD_map_of_getElem? _ _ j p hj)]
  simp only [ClpSimplex.getColSolution, zero_add]

/-- The value of a row on all columns `0 .. N-1` with coefficients `f p`. -/
theorem activity_global_row (ps : List Product) (f : Product → ℚ) (lo up : ℚ)
    (x : List ℚ) :
    Row.activity ⟨List.range ps.length, ps.map f, lo, up⟩ x =
      ((List.enumFrom 0 ps).map (fun ip => x.getD ip.1 0 * f ip.2)).sum := by
  unfold Row.activity
  rw [List.enumFrom_eq_zip_range', ← List.range_eq_range', List.zip_map_right, List.map_map]
  congr 1
  apply List.map_congr_left
  intro a _
  simp [mul_comm]

theorem activity_single_row (i : Nat) (c lo up : ℚ) (x : List ℚ) :
    Row.activity ⟨[i], [c], lo, up⟩ x = x.getD i 0 * c := by
  simp [Row.activity, mul_comm]

/-! ## C12: what the Solution Validator rechecks -/

/-- C12, as stated, fails: in the Widget scenario the point units = 210 lies
above the column bound 200 of the built model, so it is not feasible for it,
yet it satisfies all four rows and `validateSolution` reports nothing.
Likewise, with the global budget [1500,2400], units = 100 gives a total budget
1100 below the lower bound of the global budget row (row 2), and
`validateSolution` reports nothing. -/
theorem solution_validator_misses_column_bound :
    (¬ (solve (Solver.new [widget] widgetGlobal [maximizeProfit])
        (fun _ => (0, [210]))).solver.model.feasible [210] ∧
      ¬ (solve (Solver.new [widget] widgetGlobal [maximizeProfit])
        (fun _ => (0, [210]))).solver.model.withinBounds [210] 0 ∧
      (solve (Solver.new [widget] widgetGlobal [maximizeProfit])
        (fun _ => (0, [210]))).violations = []) ∧
    (¬ (solve (Solver.new [widget] tightGlobal [maximizeProfit])
        (fun _ => (0, [100]))).solver.model.feasible [100] ∧
      (∀ r ∈ (solve (Solver.new [widget] tightGlobal [maximizeProfit])
          (fun _ => (0, [100]))).solver.model.rows[2]?, ¬ r.satisfied [100]) ∧
      (solve (Solver.new [widget] tightGlobal [maximizeProfit])
        (fun _ => (0, [100]))).violations = []) := by
  decide!

theorem mem_unitViolations (p : Product) (b m : ℚ) :
    (Violation.budget p.name ∈ unitViolations p b m ↔
        (b < p.budgetMin ∨ b > p.budgetMax)) ∧
      (Violation.manHours p.name ∈ unitViolations p b m ↔ m > p.totalManHoursMax) := by
  unfold unitViolations
  constructor <;> split_ifs <;> simp_all

theorem mem_enumFrom_zero (ps : List Product) (i : Nat) (p : Product)
    (hp : ps[i]? = some p) : (i, p) ∈ List.enumFrom 0 ps :=
  List.mk_mem_enumFrom_iff_le_and_getElem?_sub.mpr ⟨Nat.zero_le _, by simpa using hp⟩

/-- The violations `solve` reports, for a solver that leaves the column
solution `sol`. -/
theorem solve_violations (s : Solver) (status : Int) (sol : List ℚ) :
    (solve s (fun _ => (status, sol))).violations =
      ((List.enumFrom 0 s.products).flatMap (fun ip =>
          unitViolations ip.2 (sol.getD ip.1 0 * ((ip.2.costMin + ip.2.costMax) / 2))
            (sol.getD ip.1 0 * ((ip.2.manHourPerUnitMin + ip.2.manHourPerUnitMax) / 2))) ++
        (if ((List.enumFrom 0 s.products).map (fun ip =>
              sol.getD ip.1 0 * ((ip.2.costMin + ip.2.costMax) / 2))).sum >
              s.globalConstraints.budgetMax
          then [Violation.globalBudget] else [])) ++
        (if ((List.enumFrom 0 s.products).map (fun ip =>
              sol.getD ip.1 0 * ((ip.2.manHourPerUnitMin + ip.2.manHourPerUnitMax) / 2))).sum >
              s.globalConstraints.manHoursMax
          then [Violation.globalManHours] else []) := by
  have hf := solve_solver_fields s (fun _ => (status, sol))
  have hv : (solve s (fun _ => (status, sol))).violations =
      validateSolution (solve s (fun _ => (status, sol))).solver := rfl
  rw [hv, validateSolution_built _ (by rw [hf.2.2.1, hf.1]) (by rw [hf.2.2.2.1, hf.1]),
    hf.1, hf.2.1, hf.2.2.2.2]

/-- C12, amended. For every product sequence, global constraints and solution
vector: when the solution breaks the budget row of a product (either bound),
`validateSolution` reports the budget violation of that product; when it
exceeds the upper bound of the labor row of a product, the man-hours violation
of that product; when it exceeds the upper bound of the global budget row or
of the global labor row, the corresponding global violation. -/
theorem reported_row_violations (s : Solver) (status : Int) (sol : List ℚ) :
    (∀ (i : Nat) (p : Product) (r : Row), s.products[i]? = some p →
      (solve s (fun _ => (status, sol))).solver.model.rows[2 * i]? = some r →
      ¬ r.satisfied sol →
      Violation.budget p.name ∈ (solve s (fun _ => (status, sol))).violations) ∧
    (∀ (i : Nat) (p : Product) (r : Row), s.products[i]? = some p →
      (solve s (fun _ => (status, sol))).solver.model.rows[2 * i + 1]? = some r →
      r.rowUpper < r.activity sol →
      Violation.manHours p.name ∈ (solve s (fun _ => (status, sol))).violations) ∧
    (∀ r : Row,
      (solve s (fun _ => (status, sol))).solver.model.rows[2 * s.products.length]? = some r →
      r.rowUpper < r.activity sol →
      Violation.globalBudget ∈ (solve s (fun _ => (status, sol))).violations) ∧
    (∀ r : Row,
      (solve s (fun _ => (status, sol))).solver.model.rows[2 * s.products.length + 1]? =
        some r →
      r.rowUpper < r.activity sol →
      Violation.globalManHours ∈ (solve s (fun _ => (status, sol))).violations) := by
  have hrows := (solve_solver_model s (fun _ => (status, sol))).1
  have hat := built_rows_at s
  rw [hrows, solve_violations]
  refine ⟨?_, ?_, ?_, ?_⟩
  · intro i p r hp hr hns
    rw [(hat.1 i p hp).1] at hr
    have hr2 := Option.some.inj hr
    rw [← hr2] at hns
    unfold Row.satisfied at hns
    rw [activity_single_row] at hns
    dsimp only at hns
    apply List.mem_append_left
    apply List.mem_append_left
    refine List.mem_flatMap.mpr ⟨(i, p), mem_enumFrom_zero _ i p hp, ?_⟩
    apply (mem_unitViolations p _ _).1.mpr
    by_contra hcon
    rw [not_or, not_lt, not_lt] at hcon
    exact hns ⟨hcon.1, hcon.2⟩
  · intro i p r hp hr hlt
    rw [(hat.1 i p hp).2] at hr
    have hr2 := Option.some.inj hr
    rw [← hr2, activity_single_row] at hlt
    dsimp only at hlt
    apply List.mem_append_left
    apply List.mem_append_left
    refine List.mem_flatMap.mpr ⟨(i, p), mem_enumFrom_zero _ i p hp, ?_⟩
    exact (mem_unitViolations p _ _).2.mpr hlt
  · intro r hr hlt
    rw [hat.2.1] at hr
    have hr2 := Option.some.inj hr
    rw [← hr2, activity_global_row] at hlt
    dsimp only at hlt
    apply List.mem_append_left
    apply List.mem_append_right
    rw [if_pos hlt]
    exact List.mem_singleton.mpr rfl
  · intro r hr hlt
    rw [hat.2.2] at hr
    have hr2 := Option.some.inj hr
    rw [← hr2, activity_global_row] at hlt
    dsimp only at hlt
    apply List.mem_append_right
    rw [if_pos hlt]
    exact List.mem_singleton.mpr rfl

/-- C12 amended, at an input: in the Widget scenario units = 250 breaks the
budget row (2750 above 2400), and the budget violation of Widget is
reported. -/
theorem reported_row_violations_witness :
    Violation.budget widget.name ∈
      (solve (Solver.new [widget] widgetGlobal [maximizeProfit])
        (fun _ => (0, [250]))).violations :=
  (reported_row_violations (Solver.new [widget] widgetGlobal [maximizeProfit]) 0 [250]).1
    0 widget ⟨[0], [11], 1000, 2400⟩ (by decide!) (by decide!) (by decide!)

/-! ## C13: the Widget scenario, model side -/

/-- C13. In the Widget scenario `validateInput` collects no critical error and
no warning and returns true for every answer; `setupModel` computes
`avgCost = 11` and `avgManHour = 3/2`, the average profit fraction
`(20 + 30) / 200` is `1/4` and the stored profit coefficient `11 * (1/4)`; the
weights are 1, 0, 0; and the objective coefficient of the only variable is
`11/4 = 2.75`. -/
theorem widget_model_side :
    (∀ choice : Char,
      (validateInput [widget] widgetGlobal [maximizeProfit] choice).criticalErrors = [] ∧
        (validateInput [widget] widgetGlobal [maximizeProfit] choice).warnings = [] ∧
        (validateInput [widget] widgetGlobal [maximizeProfit] choice).result = true) ∧
    ((setupModel (Solver.new [widget] widgetGlobal [maximizeProfit])).avgCosts = [11] ∧
      (widget.profitMin + widget.profitMax) / 200 = 1 / 4 ∧
      (setupModel (Solver.new [widget] widgetGlobal [maximizeProfit])).avgManHours = [3 / 2] ∧
      (setupModel (Solver.new [widget] widgetGlobal
        [maximizeProfit])).objectiveCoefficients = [11 * (1 / 4)]) ∧
    computeWeights [maximizeProfit] = ⟨1, 0, 0⟩ ∧
    (defineObjectiveFunction (applyConstraints (setupModel
      (Solver.new [widget] widgetGlobal [maximizeProfit])))).model.objective = [11 / 4] := by
  have hd : collectDiagnostics [widget] widgetGlobal = ⟨[], []⟩ := by decide!
  refine ⟨fun choice => ?_, by decide!, by decide!, by decide!⟩
  unfold validateInput
  rw [hd]
  simp

/-! ## C14: the Widget scenario, solve side -/

/-- C14. In the linear program the Model Builder hands to the solver for the
Widget scenario, units = 200 is feasible, the reported profit value for it is
550 and `validateSolution` reports nothing; but the posed direction is
minimize, so the feasible units = 100 (objective 275) is preferred to 200
(objective 550), and no feasible value is preferred to 100: the optimum of the
program as posed is 100, not 200. -/
theorem widget_posed_optimum_is_minimum :
    ((defineObjectiveFunction (applyConstraints (setupModel
        (Solver.new [widget] widgetGlobal [maximizeProfit])))).model.feasible [200] ∧
      (solve (Solver.new [widget] widgetGlobal [maximizeProfit])
        (fun _ => (0, [200]))).results.totalProfit = 550 ∧
      (solve (Solver.new [widget] widgetGlobal [maximizeProfit])
        (fun _ => (0, [200]))).results.lines.map (fun l => l.profitValue) = [200 * 11 * (1 / 4)] ∧
      (solve (Solver.new [widget] widgetGlobal [maximizeProfit])
        (fun _ => (0, [200]))).violations = []) ∧
    ((defineObjectiveFunction (applyConstraints (setupModel
        (Solver.new [widget] widgetGlobal [maximizeProfit])))).model.feasible [100] ∧
      (defineObjectiveFunction (applyConstraints (setupModel
        (Solver.new [widget] widgetGlobal [maximizeProfit])))).model.objectiveValue [100] = 275 ∧
      (defineObjectiveFunction (applyConstraints (setupModel
        (Solver.new [widget] widgetGlobal [maximizeProfit])))).model.objectiveValue [200] = 550 ∧
      (defineObjectiveFunction (applyConstraints (setupModel
        (Solver.new [widget] widgetGlobal [maximizeProfit])))).model.prefers [100] [200]) ∧
    (∀ x : ℚ,
      (defineObjectiveFunction (applyConstraints (setupModel
        (Solver.new [widget] widgetGlobal [maximizeProfit])))).model.feasible [x] →
      ¬ (defineObjectiveFunction (applyConstraints (setupModel
        (Solver.new [widget] widgetGlobal [maximizeProfit])))).model.prefers [x] [100]) := by
  have hm : (defineObjectiveFunction (applyConstraints (setupModel
      (Solver.new [widget] widgetGlobal [maximizeProfit])))).model =
      ⟨[100], [200], [11 / 4],
        [⟨[0], [11], 1000, 2400⟩, ⟨[0], [3 / 2], 0, 400⟩, ⟨[0], [11], 1000, 2400⟩,
          ⟨[0], [3 / 2], 0, 400⟩], 1, [0]⟩ := by decide!
  refine ⟨by decide!, ⟨by decide!, by decide!, by decide!, ?_⟩, ?_⟩
  · rw [hm]
    norm_num [ClpSimplex.prefers, clpSense, ClpSimplex.objectiveValue]
  · intro x hx
    rw [hm] at hx ⊢
    have hb := hx.2.1 0 (by simp)
    have hlo : (100 : ℚ) ≤ x := by simpa [ClpSimplex.withinBounds] using hb.1
    norm_num [ClpSimplex.prefers, clpSense, ClpSimplex.objectiveValue]
    linarith

/-! ## Lemmas on the sensitivity loops -/

theorem foldl_sensitivityStep (ps : List Product) (s : Solver) (delta : ℚ) (k : Nat)
    (out : List (String × ℚ)) (fc : Product → ℚ)
    (hc : ∀ j p, ps[j]? = some p → s.avgCosts.getD (k + j) 0 = fc p) :
    ps.foldl (sensitivityStep s delta) (k, out) =
      (k + ps.length, out ++ (List.enumFrom k ps).map (fun ip =>
        (ip.2.name, s.model.columnActivity.getD ip.1 0 * fc ip.2 *
          (((ip.2.profitMin + ip.2.profitMax) / 2) * (1 + delta / 100) / 100)))) := by
  induction ps generalizing k out with
  | nil => simp
  | cons q rest ih =>
    have h0c := hc 0 q (by simp)
    simp only [Nat.add_zero] at h0c
    have hstep : sensitivityStep s delta (k, out) q =
        (k + 1, out ++ [(q.name, s.model.columnActivity.getD k 0 * fc q *
          (((q.profitMin + q.profitMax) / 2) * (1 + delta / 100) / 100))]) := by
      unfold sensitivityStep
      dsimp only
      rw [h0c]
      rfl
    rw [List.foldl_cons, hstep, ih (k + 1) _
      (fun j p hj => by
        have := hc (j + 1) p (by simpa using hj)
        rw [← this]
        congr 1
        omega)]
    simp only [List.enumFrom_cons, List.map_cons, List.append_assoc, List.singleton_append,
      List.length_cons]
    congr 1
    omega

/-- The outer loop of the sensitivity analysis, from `delta = -10` and with a
bound of at least five iterations, visits -10, -5, 0, 5, 10, skips 0 and
stops. -/
theorem sensitivityLoop_enough (s : Solver) (n : Nat) :
    sensitivityLoop s (n + 5) (-10) [] =
      [-10, -5, 5, 10].map (fun d =>
        (d, (s.products.foldl (sensitivityStep s d) (0, [])).2)) := by
  cases n with
  | zero => norm_num [sensitivityLoop]
  | succ m => norm_num [sensitivityLoop]

theorem performSensitivityAnalysis_built (t : Solver)
    (hc : t.avgCosts = t.products.map (fun p => (p.costMin + p.costMax) / 2)) :
    performSensitivityAnalysis t =
      [-10, -5, 5, 10].map (fun d =>
        (d, (List.enumFrom 0 t.products).map (fun ip =>
          (ip.2.name, t.model.columnActivity.getD ip.1 0 * ((ip.2.costMin + ip.2.costMax) / 2) *
            (((ip.2.profitMin + ip.2.profitMax) / 2) * (1 + d / 100) / 100))))) := by
  unfold performSensitivityAnalysis
  rw [sensitivityLoop_enough t 3]
  apply List.map_congr_left
  intro d _
  rw [foldl_sensitivityStep t.products t d 0 [] (fun p => (p.costMin + p.costMax) / 2)
    (fun j p hj => by rw [hc]; exact getD_map_of_getElem? _ _ j p hj)]
  simp

/-! ## C15: the sensitivity table -/

/-- C15. For every product sequence and solution vector the sensitivity
analysis reports the four deltas -10, -5, 5, 10 in that order, and for delta
`d` and the i-th product the value
`units_i * avgCost_i * ((((profitMin_i + profitMax_i) / 2) * (1 + d / 100)) / 100)`,
which is `(1 + d / 100)` times the unperturbed profit value; any bound of at
least five iterations on the delta loop gives this table; and the solver state
`solve` ends with still holds the solution vector the solver left and the
objective the Model Builder set. -/
theorem sensitivity_table (s : Solver) (status : Int) (sol : List ℚ) :
    (solve s (fun _ => (status, sol))).sensitivity =
        [-10, -5, 5, 10].map (fun d =>
          (d, (List.enumFrom 0 s.products).map (fun ip =>
            (ip.2.name, sol.getD ip.1 0 * ((ip.2.costMin + ip.2.costMax) / 2) *
              (((ip.2.profitMin + ip.2.profitMax) / 2) * (1 + d / 100) / 100))))) ∧
      (∀ (d u : ℚ) (p : Product),
        u * ((p.costMin + p.costMax) / 2) *
            (((p.profitMin + p.profitMax) / 2) * (1 + d / 100) / 100) =
          (1 + d / 100) *
            (u * ((p.costMin + p.costMax) / 2) * ((p.profitMin + p.profitMax) / 2) / 100)) ∧
      (∀ n : Nat,
        sensitivityLoop (solve s (fun _ => (status, sol))).solver (n + 5) (-10) [] =
          (solve s (fun _ => (status, sol))).sensitivity) ∧
      (solve s (fun _ => (status, sol))).solver.model.columnActivity = sol ∧
      (solve s (fun _ => (status, sol))).solver.model.objective =
        (defineObjectiveFunction (applyConstraints (setupModel s))).model.objective := by
  have hf := solve_solver_fields s (fun _ => (status, sol))
  have hs : (solve s (fun _ => (status, sol))).sensitivity =
      performSensitivityAnalysis (solve s (fun _ => (status, sol))).solver := rfl
  refine ⟨?_, fun d u p => by ring, fun n => ?_, hf.2.2.2.2, rfl⟩
  · rw [hs, performSensitivityAnalysis_built _ (by rw [hf.2.2.1, hf.1]), hf.1, hf.2.2.2.2]
  · rw [hs, sensitivityLoop_enough]
    unfold performSensitivityAnalysis
    rw [sensitivityLoop_enough _ 3]

/-! ## C20: the sums over the products do not depend on the order -/

theorem enum_pairs (pairs : List (Product × ℚ)) (f : Product → ℚ) :
    (List.enumFrom 0 (pairs.map Prod.fst)).map
        (fun ip => (pairs.map Prod.snd).getD ip.1 0 * f ip.2) =
      pairs.map (fun pu => pu.2 * f pu.1) := by
  apply List.ext_getElem?
  intro n
  simp only [List.getElem?_map, List.getElem?_enumFrom, Option.map_map]
  cases h : pairs[n]? with
  | none => simp
  | some pu => simp [List.getD_eq_getElem?_getD, h]

theorem filter_global_collect (ps : List Product) (gc : GlobalConstraints) :
    (collectDiagnostics ps gc).criticalErrors.filter Message.aboutGlobalBudget =
        (validateGlobal ⟨[], []⟩ gc (realisticTotalMin ps)
          (realisticTotalMax ps)).criticalErrors ∧
      (collectDiagnostics ps gc).warnings.filter Message.aboutGlobalBudget =
        (validateGlobal ⟨[], []⟩ gc (realisticTotalMin ps) (realisticTotalMax ps)).warnings := by
  have h1 : (ps.flatMap productCriticals).filter Message.aboutGlobalBudget = [] := by
    rw [List.filter_eq_nil_iff]
    intro m hm
    have := List.countP_eq_zero.mp (countP_flatMap_eq_zero ps productCriticals
      Message.aboutGlobalBudget (fun q _ => (countP_global_product q).1)) m hm
    simpa using this
  have h2 : (ps.flatMap productWarnings).filter Message.aboutGlobalBudget = [] := by
    rw [List.filter_eq_nil_iff]
    intro m hm
    have := List.countP_eq_zero.mp (countP_flatMap_eq_zero ps productWarnings
      Message.aboutGlobalBudget (fun q _ => (countP_global_product q).2)) m hm
    simpa using this
  rw [collectDiagnostics_criticalErrors, collectDiagnostics_warnings, List.filter_append,
    List.filter_append, h1, h2]
  unfold validateGlobal
  split_ifs <;> simp [Message.aboutGlobalBudget]

theorem realisticTotals_perm (ps1 ps2 : List Product) (h : ps1.Perm ps2) :
    realisticTotalMin ps1 = realisticTotalMin ps2 ∧
      realisticTotalMax ps1 = realisticTotalMax ps2 :=
  ⟨(h.map _).sum_eq, (h.map _).sum_eq⟩

theorem mem_global_violations (s : Solver) (status : Int) (sol : List ℚ) :
    (Violation.globalBudget ∈ (solve s (fun _ => (status, sol))).violations ↔
        ((List.enumFrom 0 s.products).map (fun ip =>
          sol.getD ip.1 0 * ((ip.2.costMin + ip.2.costMax) / 2))).sum >
            s.globalConstraints.budgetMax) ∧
      (Violation.globalManHours ∈ (solve s (fun _ => (status, sol))).violations ↔
        ((List.enumFrom 0 s.products).map (fun ip =>
          sol.getD ip.1 0 * ((ip.2.manHourPerUnitMin + ip.2.manHourPerUnitMax) / 2))).sum >
            s.globalConstraints.manHoursMax) := by
  have hu1 : ∀ (p : Product) (b m : ℚ), Violation.globalBudget ∉ unitViolations p b m := by
    intro p b m
    unfold unitViolations
    split_ifs <;> simp
  have hu2 : ∀ (p : Product) (b m : ℚ), Violation.globalManHours ∉ unitViolations p b m := by
    intro p b m
    unfold unitViolations
    split_ifs <;> simp
  rw [solve_violations]
  constructor
  · constructor
    · intro h
      rcases List.mem_append.mp h with h | h
      · rcases List.mem_append.mp h with h | h
        · obtain ⟨ip, _, hip⟩ := List.mem_flatMap.mp h
          exact absurd hip (hu1 _ _ _)
        · by_contra hcon
          rw [if_neg hcon] at h
          simp at h
      · split_ifs at h <;> simp at h
    · intro h
      apply List.mem_append_left
      apply List.mem_append_right
      rw [if_pos h]
      exact List.mem_singleton.mpr rfl
  · constructor
    · intro h
      rcases List.mem_append.mp h with h | h
      · rcases List.mem_append.mp h with h | h
        · obtain ⟨ip, _, hip⟩ := List.mem_flatMap.mp h
          exact absurd hip (hu2 _ _ _)
        · split_ifs at h <;> simp at h
      · by_contra hcon
        rw [if_neg hcon] at h
        simp at h
    · intro h
      apply List.mem_append_right
      rw [if_pos h]
      exact List.mem_singleton.mpr rfl

/-- C20. For a sequence of products, each with its solution value, and any
permutation of it: the totals `(totalMinBudget, totalMaxBudget)` the Range
Validator accumulates are the same, and so are its global budget critical
errors and warnings; the totals `(totalBudgetUsed, totalManHoursUsed)` the
Solution Validator accumulates are the same, and so is whether it reports the
global budget and the global man-hours violation. -/
theorem sums_order_independent (pairs1 pairs2 : List (Product × ℚ))
    (hperm : pairs1.Perm pairs2) (gc : GlobalConstraints) (objs : List Objective)
    (status : Int) :
    ((pairs1.map Prod.fst).foldl accumulateBudget (0, 0) =
        (pairs2.map Prod.fst).foldl accumulateBudget (0, 0) ∧
      (collectDiagnostics (pairs1.map Prod.fst) gc).criticalErrors.filter
          Message.aboutGlobalBudget =
        (collectDiagnostics (pairs2.map Prod.fst) gc).criticalErrors.filter
          Message.aboutGlobalBudget ∧
      (collectDiagnostics (pairs1.map Prod.fst) gc).warnings.filter
          Message.aboutGlobalBudget =
        (collectDiagnostics (pairs2.map Prod.fst) gc).warnings.filter
          Message.aboutGlobalBudget) ∧
    (validateSolutionTotals (solve (Solver.new (pairs1.map Prod.fst) gc objs)
          (fun _ => (status, pairs1.map Prod.snd))).solver =
        validateSolutionTotals (solve (Solver.new (pairs2.map Prod.fst) gc objs)
          (fun _ => (status, pairs2.map Prod.snd))).solver ∧
      (Violation.globalBudget ∈ (solve (Solver.new (pairs1.map Prod.fst) gc objs)
            (fun _ => (status, pairs1.map Prod.snd))).violations ↔
        Violation.globalBudget ∈ (solve (Solver.new (pairs2.map Prod.fst) gc objs)
            (fun _ => (status, pairs2.map Prod.snd))).violations) ∧
      (Violation.globalManHours ∈ (solve (Solver.new (pairs1.map Prod.fst) gc objs)
            (fun _ => (status, pairs1.map Prod.snd))).violations ↔
        Violation.globalManHours ∈ (solve (Solver.new (pairs2.map Prod.fst) gc objs)
            (fun _ => (status, pairs2.map Prod.snd))).violations)) := by
  have ht := realisticTotals_perm _ _ (hperm.map Prod.fst)
  have hsum : ∀ f : Product → ℚ,
      ((List.enumFrom 0 (pairs1.map Prod.fst)).map
          (fun ip => (pairs1.map Prod.snd).getD ip.1 0 * f ip.2)).sum =
        ((List.enumFrom 0 (pairs2.map Prod.fst)).map
          (fun ip => (pairs2.map Prod.snd).getD ip.1 0 * f ip.2)).sum := by
    intro f
    rw [enum_pairs, enum_pairs]
    exact (hperm.map _).sum_eq
  refine ⟨⟨?_, ?_, ?_⟩, ?_, ?_, ?_⟩
  · rw [foldl_accumulateBudget, foldl_accumulateBudget, ht.1, ht.2]
  · rw [(filter_global_collect _ gc).1, (filter_global_collect _ gc).1, ht.1, ht.2]
  · rw [(filter_global_collect _ gc).2, (filter_global_collect _ gc).2, ht.1, ht.2]
  · have hf1 := solve_solver_fields (Solver.new (pairs1.map Prod.fst) gc objs)
      (fun _ => (status, pairs1.map Prod.snd))
    have hf2 := solve_solver_fields (Solver.new (pairs2.map Prod.fst) gc objs)
      (fun _ => (status, pairs2.map Prod.snd))
    rw [validateSolutionTotals_built _ (by rw [hf1.2.2.1, hf1.1]) (by rw [hf1.2.2.2.1, hf1.1]),
      validateSolutionTotals_built _ (by rw [hf2.2.2.1, hf2.1]) (by rw [hf2.2.2.2.1, hf2.1]),
      hf1.1, hf2.1, hf1.2.2.2.2, hf2.2.2.2.2]
    exact Prod.ext (hsum (fun p => (p.costMin + p.costMax) / 2))
      (hsum (fun p => (p.manHourPerUnitMin + p.manHourPerUnitMax) / 2))
  · rw [(mem_global_violations _ status _).1, (mem_global_violations _ status _).1]
    exact Iff.of_eq (congrArg (fun t => t > gc.budgetMax)
      (hsum (fun p => (p.costMin + p.costMax) / 2)))
  · rw [(mem_global_violations _ status _).2, (mem_global_violations _ status _).2]
    exact Iff.of_eq (congrArg (fun t => t > gc.manHoursMax)
      (hsum (fun p => (p.manHourPerUnitMin + p.manHourPerUnitMax) / 2)))

/-- C20, at an input: Widget with 200 units and Gadget with 60, in the two
orders, give the same totals in the Solution Validator. -/
theorem sums_order_independent_witness :
    [(widget, (200 : ℚ)), (gadget, 60)].Perm [(gadget, 60), (widget, 200)] ∧
      validateSolutionTotals (solve (Solver.new
          ([(widget, (200 : ℚ)), (gadget, 60)].map Prod.fst) widgetGlobal [maximizeProfit])
          (fun _ => (0, [(widget, (200 : ℚ)), (gadget, 60)].map Prod.snd))).solver =
        validateSolutionTotals (solve (Solver.new
          ([(gadget, (60 : ℚ)), (widget, 200)].map Prod.fst) widgetGlobal [maximizeProfit])
          (fun _ => (0, [(gadget, (60 : ℚ)), (widget, 200)].map Prod.snd))).solver :=
  ⟨List.Perm.swap _ _ _,
    (sums_order_independent [(widget, 200), (gadget, 60)] [(gadget, 60), (widget, 200)]
      (List.Perm.swap _ _ _) widgetGlobal [maximizeProfit] 0).2.1⟩

/-! ## C16: the rank of an objective at ingestion -/

/-- C16, as stated, fails: the objective line `maximize_profit = 0`, whose
value parses to 0, is not rejected; `parseInputConfig` returns normally with
the objective (profit, maximize) of rank 0, below 1. -/
theorem rank_zero_is_accepted :
    stoiDigits "0" = Except.ok 0 ∧
      parseObjective stoiDigits "maximize_profit" "0" [] =
        Except.ok [⟨"profit", "maximize", 0⟩] ∧
      parseInputConfig stodDigits stoiDigits (some ["[Objectives]", "maximize_profit = 0"])
          widgetGlobal [] widget =
        Except.ok ([], widgetGlobal, [⟨"profit", "maximize", 0⟩]) := by
  decide!

theorem takeWhile_append_sep (a b : List Char) (c : Char) (ha : c ∉ a) :
    (a ++ c :: b).takeWhile (fun x => x != c) = a ∧
      ((a ++ c :: b).dropWhile (fun x => x != c)).drop 1 = b := by
  induction a with
  | nil => simp
  | cons x rest ih =>
    have hx : x ≠ c := fun h => ha (by simp [h])
    have hrest : c ∉ rest := fun h => ha (List.mem_cons_of_mem _ h)
    have := ih hrest
    simp [List.takeWhile_cons, List.dropWhile_cons, hx, this.1, this.2]

/-- C16, amended. For every objective line whose key is `maximize_` or
`minimize_` followed by a name and whose value parses to the integer `v`, no
`v` is rejected: the objective is appended with rank `min v 10`, whatever the
sign of `v`.  So the rank is at most 10, and it is at least 1 exactly when `v`
is. -/
theorem objective_rank_capped_at_ten (stoi : String → Except String Int)
    (type name value : String) (objectives : List Objective) (v : Int)
    (htype : type = "maximize" ∨ type = "minimize") (hv : stoi value = Except.ok v) :
    parseObjective stoi ⟨type.data ++ '_' :: name.data⟩ value objectives =
        Except.ok (objectives ++ [⟨name, type, min v 10⟩]) ∧
      min v 10 ≤ 10 ∧ (1 ≤ min v 10 ↔ 1 ≤ v) := by
  have hnot : '_' ∉ type.data := by
    rcases htype with h | h <;> rw [h] <;> decide
  have hsplit := takeWhile_append_sep type.data name.data '_' hnot
  refine ⟨?_, min_le_right _ _, ?_⟩
  · unfold parseObjective
    have hmem : '_' ∈ type.data ++ '_' :: name.data := by simp
    have hty : ¬ ((⟨type.data⟩ : String) ≠ "maximize" ∧ (⟨type.data⟩ : String) ≠ "minimize") := by
      rcases htype with h | h <;> simp [h]
    simp only [hmem, not_true_eq_false, if_false, hsplit.1, hsplit.2, hty, hv]
    congr 3
    by_cases h10 : v > 10
    · rw [if_pos h10, min_eq_right (le_of_lt h10)]
    · rw [if_neg h10, min_eq_left (not_lt.mp h10)]
  · constructor
    · intro h
      exact le_trans h (min_le_left _ _)
    · intro h
      exact le_min h (by norm_num)

/-- C16 amended, at an input: the key `maximize_profit` with a value parsing
to -3 is appended with rank -3. -/
theorem objective_rank_capped_at_ten_witness :
    parseObjective (fun _ => Except.ok (-3)) ⟨"maximize".data ++ '_' :: "profit".data⟩ "-3" [] =
        Except.ok ([] ++ [⟨"profit", "maximize", min (-3) 10⟩]) ∧
      min (-3 : Int) 10 ≤ 10 ∧ (1 ≤ min (-3 : Int) 10 ↔ 1 ≤ (-3 : Int)) :=
  objective_rank_capped_at_ten (fun _ => Except.ok (-3)) "maximize" "profit" "-3" [] (-3)
    (Or.inl rfl) rfl

/-! ## C17: the order of the two ends of a range at ingestion -/

/-- C17, as stated, fails: the range text `12,10` is accepted by `parseRange`
as the pair (12, 10), and `parseInputConfig` stores it as the cost range of
the product, with `costMin = 12` above `costMax = 10`. -/
theorem inverted_range_is_stored :
    parseRange stodDigits "12,10" = Except.ok (12, 10) ∧
      ¬ ((12 : ℚ) ≤ 10) ∧
      parseInputConfig stodDigits stoiDigits
          (some ["[Widget]", "product_name = Widget", "cost_range = 12,10"])
          widgetGlobal [] widget =
        Except.ok ([{ emptyProduct with name := "Widget", costMin := 12, costMax := 10 }],
          widgetGlobal, []) := by
  decide!

theorem getlineComma_of_ne_nil (l : List Char) (h : l ≠ []) :
    getlineComma l =
      some (l.takeWhile (fun c => c != ','), (l.dropWhile (fun c => c != ',')).drop 1) := by
  cases l with
  | nil => exact absurd rfl h
  | cons x rest => rfl

theorem takeWhile_of_not_mem (l : List Char) (c : Char) (h : c ∉ l) :
    l.takeWhile (fun x => x != c) = l := by
  induction l with
  | nil => rfl
  | cons x rest ih =>
    have hx : x ≠ c := fun e => h (by simp [e])
    have hrest : c ∉ rest := fun e => h (List.mem_cons_of_mem _ e)
    simp [List.takeWhile_cons, hx, ih hrest]

theorem parseRange_of_pieces (stod : String → Except String ℚ) (a b : String) (x y : ℚ)
    (ha : ',' ∉ a.data) (hb : ',' ∉ b.data) (hbne : b.data ≠ [])
    (hx : stod (trim a) = Except.ok x) (hy : stod (trim b) = Except.ok y) :
    parseRange stod ⟨a.data ++ ',' :: b.data⟩ = Except.ok (x, y) := by
  have hsplit := takeWhile_append_sep a.data b.data ',' ha
  unfold parseRange
  rw [getlineComma_of_ne_nil _ (by simp)]
  simp only [hsplit.1, hsplit.2]
  rw [getlineComma_of_ne_nil _ hbne]
  simp only [takeWhile_of_not_mem _ _ hb]
  have ea : (⟨a.data⟩ : String) = a := rfl
  have eb : (⟨b.data⟩ : String) = b := rfl
  rw [ea, eb, hx, hy]

theorem parseProduct_range (stod : String → Except String ℚ) (key value : String)
    (p : Product) (lo hi : ℚ) (hr : parseRange stod value = Except.ok (lo, hi)) :
    (key = "cost_range" →
      parseProduct stod key value p = Except.ok { p with costMin := lo, costMax := hi }) ∧
    (key = "profit_range" →
      parseProduct stod key value p = Except.ok { p with profitMin := lo, profitMax := hi }) ∧
    (key = "demand_range" →
      parseProduct stod key value p = Except.ok { p with demandMin := lo, demandMax := hi }) ∧
    (key = "budget_range" →
      parseProduct stod key value p = Except.ok { p with budgetMin := lo, budgetMax := hi }) ∧
    (key = "man_hour_per_unit" →
      parseProduct stod key value p =
        Except.ok { p with manHourPerUnitMin := lo, manHourPerUnitMax := hi }) ∧
    (key = "total_man_hours" →
      parseProduct stod key value p =
        Except.ok { p with totalManHoursMin := lo, totalManHoursMax := hi }) := by
  refine ⟨?_, ?_, ?_, ?_, ?_, ?_⟩ <;> intro hk <;> subst hk <;> simp [parseProduct, hr]

theorem parseGlobal_range (stod : String → Except String ℚ) (key value : String)
    (g : GlobalConstraints) (lo hi : ℚ) (hr : parseRange stod value = Except.ok (lo, hi)) :
    (key = "global_budget" →
      parseGlobal stod key value g = Except.ok { g with budgetMin := lo, budgetMax := hi }) ∧
    (key = "global_profit" →
      parseGlobal stod key value g = Except.ok { g with profitMin := lo, profitMax := hi }) ∧
    (key = "global_man_hours" →
      parseGlobal stod key value g =
        Except.ok { g with manHoursMin := lo, manHoursMax := hi }) := by
  refine ⟨?_, ?_, ?_⟩ <;> intro hk <;> subst hk <;> simp [parseGlobal, hr]

/-- What `parseLine` does with a line that is neither empty, a comment nor a
section header and whose trimmed text is `k=v` with no `=` in `k`: the branch
of the current section on the key `trim k` and the value `trim v`. -/
theorem parseLine_keyValue (stod : String → Except String ℚ)
    (stoi : String → Except String Int) (st : ParseState) (rawLine k v : String)
    (hline : (trim rawLine).data = k.data ++ '=' :: v.data) (hk : '=' ∉ k.data)
    (hcomment : (trim rawLine).data.head? ≠ some '#')
    (hsection : ¬ ((trim rawLine).data.head? = some '[' ∧
      (trim rawLine).data.getLast? = some ']')) :
    parseLine stod stoi st rawLine =
      if st.currentSection = "Global" then
        match parseGlobal stod (trim k) (trim v) st.globalConstraints with
        | Except.error e => Except.error e
        | Except.ok g => Except.ok { st with globalConstraints := g }
      else if st.currentSection = "Objectives" then
        match parseObjective stoi (trim k) (trim v) st.objectives with
        | Except.error e => Except.error e
        | Except.ok objectives => Except.ok { st with objectives := objectives }
      else
        match parseProduct stod (trim k) (trim v) st.currentProduct with
        | Except.error e => Except.error e
        | Except.ok p => Except.ok { st with currentProduct := p } := by
  have hsplit := takeWhile_append_sep k.data v.data '=' hk
  have hne : (trim rawLine).data.isEmpty = false := by
    rw [hline]
    cases k.data <;> rfl
  have hmem : '=' ∈ (trim rawLine).data := by
    rw [hline]
    simp
  have ek : (⟨k.data⟩ : String) = k := rfl
  have ev : (⟨v.data⟩ : String) = v := rfl
  unfold parseLine
  dsimp only
  rw [if_neg (by rw [hne]; simpa using hcomment), if_neg hsection,
    if_neg (not_not.mpr hmem), hline, hsplit.1, hsplit.2, ek, ev]

theorem parseLines_append (stod : String → Except String ℚ)
    (stoi : String → Except String Int) (st : ParseState) (l1 l2 : List String) :
    parseLines stod stoi st (l1 ++ l2) =
      match parseLines stod stoi st l1 with
      | Except.error e => Except.error e
      | Except.ok st1 => parseLines stod stoi st1 l2 := by
  induction l1 generalizing st with
  | nil => rfl
  | cons x rest ih =>
    simp only [List.cons_append, parseLines]
    cases parseLine stod stoi st x with
    | error e => rfl
    | ok st1 => exact ih st1

theorem mem_mapAssign (products : List Product) (p : Product) :
    p ∈ mapAssign products p := by
  unfold mapAssign
  split_ifs with h
  · obtain ⟨q, hq, hname⟩ := List.any_eq_true.mp h
    have hn : q.name = p.name := by simpa using hname
    exact List.mem_map.mpr ⟨q, hq, by rw [if_pos hn]⟩
  · simp

/-- What `parseLine` does with a section header: the product of the section
that ends is put in the map as it is, and the new section starts. -/
theorem parseLine_header (stod : String → Except String ℚ)
    (stoi : String → Except String Int) (st : ParseState) (rawLine : String)
    (hcomment : (trim rawLine).data.head? ≠ some '#')
    (hsection : (trim rawLine).data.head? = some '[' ∧
      (trim rawLine).data.getLast? = some ']') :
    parseLine stod stoi st rawLine =
      Except.ok { st with
        products :=
          (if isProductSection st.currentSection then
              mapAssign st.products st.currentProduct
            else st.products)
        currentSection :=
          (⟨((trim rawLine).data.drop 1).take ((trim rawLine).data.length - 2)⟩ : String)
        currentProduct :=
          (if (⟨((trim rawLine).data.drop 1).take ((trim rawLine).data.length - 2)⟩ : String) ≠
                "Global" ∧
              (⟨((trim rawLine).data.drop 1).take ((trim rawLine).data.length - 2)⟩ : String) ≠
                "Objectives" then
            emptyProduct
          else st.currentProduct) } := by
  have hne : (trim rawLine).data.isEmpty = false := by
    cases hd : (trim rawLine).data with
    | nil => rw [hd] at hsection; simp at hsection
    | cons c cs => rfl
  unfold parseLine
  dsimp only
  rw [if_neg (by rw [hne]; simpa using hcomment), if_pos hsection]

theorem parseInputConfig_last_line (stod : String → Except String ℚ)
    (stoi : String → Except String Int) (before : List String) (rawLine : String)
    (gc0 : GlobalConstraints) (objs0 : List Objective) (p0 : Product) (st st1 : ParseState)
    (hbefore : parseLines stod stoi ⟨[], gc0, objs0, "", p0⟩ before = Except.ok st)
    (hlast : parseLine stod stoi st rawLine = Except.ok st1) :
    parseInputConfig stod stoi (some (before ++ [rawLine])) gc0 objs0 p0 =
      Except.ok
        (if isProductSection st1.currentSection then mapAssign st1.products st1.currentProduct
          else st1.products,
          st1.globalConstraints, st1.objectives) := by
  unfold parseInputConfig
  simp only [parseLines_append, hbefore, parseLines, hlast]

/-- C17, amended. (1) For two pieces of text without a comma, each non-empty
and each read by `std::stod`, `parseRange` accepts the range text with the
pieces in either order and returns the two numbers in the order written: it
never compares them.  (2) For every line that is neither a comment nor a
section header, whose trimmed text is `k=v` and whose value `parseRange` reads
as `(lo, hi)`: outside the Global and Objectives sections each of the keys
`cost_range`, `profit_range`, `demand_range`, `budget_range`,
`man_hour_per_unit`, `total_man_hours` stores `lo` and `hi`, as they are, in
the min and the max field of the current product, and in the Global section
each of `global_budget`, `global_profit`, `global_man_hours` stores them in
the fields of the global constraints; no line is refused for `lo > hi`.
(3) When that line is the last of the file, `parseInputConfig` returns
normally with the state the line left, the current product stored in the map.
(4) A section header puts the product of the section that ends in the map and
changes nothing else of it, and the map assignment keeps the product it is
given as it is. -/
theorem parseRange_keeps_written_order (stod : String → Except String ℚ)
    (stoi : String → Except String Int) (a b : String)
    (x y : ℚ) (ha : ',' ∉ a.data) (hb : ',' ∉ b.data) (hane : a.data ≠ [])
    (hbne : b.data ≠ []) (hx : stod (trim a) = Except.ok x)
    (hy : stod (trim b) = Except.ok y) :
    (parseRange stod ⟨a.data ++ ',' :: b.data⟩ = Except.ok (x, y) ∧
      parseRange stod ⟨b.data ++ ',' :: a.data⟩ = Except.ok (y, x)) ∧
    (∀ (st : ParseState) (rawLine k v : String) (lo hi : ℚ),
      (trim rawLine).data = k.data ++ '=' :: v.data → '=' ∉ k.data →
      (trim rawLine).data.head? ≠ some '#' →
      ¬ ((trim rawLine).data.head? = some '[' ∧ (trim rawLine).data.getLast? = some ']') →
      parseRange stod (trim v) = Except.ok (lo, hi) →
      (st.currentSection ≠ "Global" → st.currentSection ≠ "Objectives" →
        (trim k = "cost_range" →
          parseLine stod stoi st rawLine = Except.ok { st with
            currentProduct := { st.currentProduct with costMin := lo, costMax := hi } }) ∧
        (trim k = "profit_range" →
          parseLine stod stoi st rawLine = Except.ok { st with
            currentProduct := { st.currentProduct with profitMin := lo, profitMax := hi } }) ∧
        (trim k = "demand_range" →
          parseLine stod stoi st rawLine = Except.ok { st with
            currentProduct := { st.currentProduct with demandMin := lo, demandMax := hi } }) ∧
        (trim k = "budget_range" →
          parseLine stod stoi st rawLine = Except.ok { st with
            currentProduct := { st.currentProduct with budgetMin := lo, budgetMax := hi } }) ∧
        (trim k = "man_hour_per_unit" →
          parseLine stod stoi st rawLine = Except.ok { st with
            currentProduct := { st.currentProduct with
              manHourPerUnitMin := lo, manHourPerUnitMax := hi } }) ∧
        (trim k = "total_man_hours" →
          parseLine stod stoi st rawLine = Except.ok { st with
            currentProduct := { st.currentProduct with
              totalManHoursMin := lo, totalManHoursMax := hi } })) ∧
      (st.currentSection = "Global" →
        (trim k = "global_budget" →
          parseLine stod stoi st rawLine = Except.ok { st with
            globalConstraints := { st.globalConstraints with
              budgetMin := lo, budgetMax := hi } }) ∧
        (trim k = "global_profit" →
          parseLine stod stoi st rawLine = Except.ok { st with
            globalConstraints := { st.globalConstraints with
              profitMin := lo, profitMax := hi } }) ∧
        (trim k = "global_man_hours" →
          parseLine stod stoi st rawLine = Except.ok { st with
            globalConstraints := { st.globalConstraints with
              manHoursMin := lo, manHoursMax := hi } }))) ∧
    (∀ (before : List String) (rawLine : String) (gc0 : GlobalConstraints)
        (objs0 : List Objective) (p0 : Product) (st st1 : ParseState),
      parseLines stod stoi ⟨[], gc0, objs0, "", p0⟩ before = Except.ok st →
      parseLine stod stoi st rawLine = Except.ok st1 →
      parseInputConfig stod stoi (some (before ++ [rawLine])) gc0 objs0 p0 =
        Except.ok
          (if isProductSection st1.currentSection then
              mapAssign st1.products st1.currentProduct
            else st1.products,
            st1.globalConstraints, st1.objectives)) ∧
    ((∀ (st : ParseState) (rawLine : String),
        (trim rawLine).data.head? ≠ some '#' →
        ((trim rawLine).data.head? = some '[' ∧ (trim rawLine).data.getLast? = some ']') →
        ∃ st1 : ParseState, parseLine stod stoi st rawLine = Except.ok st1 ∧
          st1.globalConstraints = st.globalConstraints ∧
          st1.products =
            (if isProductSection st.currentSection then
                mapAssign st.products st.currentProduct
              else st.products)) ∧
      (∀ (products : List Product) (p : Product), p ∈ mapAssign products p)) := by
  refine ⟨⟨parseRange_of_pieces stod a b x y ha hb hbne hx hy,
      parseRange_of_pieces stod b a y x hb ha hane hy hx⟩, ?_,
    fun before rawLine gc0 objs0 p0 st st1 h1 h2 =>
      parseInputConfig_last_line stod stoi before rawLine gc0 objs0 p0 st st1 h1 h2,
    fun st rawLine hc hs => ⟨_, parseLine_header stod stoi st rawLine hc hs, rfl, rfl⟩,
    mem_mapAssign⟩
  intro st rawLine k v lo hi hline hk hcomment hsection hr
  have hl := parseLine_keyValue stod stoi st rawLine k v hline hk hcomment hsection
  constructor
  · intro hg ho
    have hp := parseProduct_range stod (trim k) (trim v) st.currentProduct lo hi hr
    rw [if_neg hg, if_neg ho] at hl
    refine ⟨fun h => ?_, fun h => ?_, fun h => ?_, fun h => ?_, fun h => ?_, fun h => ?_⟩
    · rw [hl, hp.1 h]
    · rw [hl, hp.2.1 h]
    · rw [hl, hp.2.2.1 h]
    · rw [hl, hp.2.2.2.1 h]
    · rw [hl, hp.2.2.2.2.1 h]
    · rw [hl, hp.2.2.2.2.2 h]
  · intro hg
    have hp := parseGlobal_range stod (trim k) (trim v) st.globalConstraints lo hi hr
    rw [if_pos hg] at hl
    refine ⟨fun h => ?_, fun h => ?_, fun h => ?_⟩
    · rw [hl, hp.1 h]
    · rw [hl, hp.2.1 h]
    · rw [hl, hp.2.2 h]

/-- C17 amended, at an input: with the pieces `200` and ` 100`, the range text
`200, 100` is read as (200, 100); in the section of the Widget product the
line `  demand_range = 200, 100 ` stores `demandMin = 200` above
`demandMax = 100`; and as the last line of a file it makes `parseInputConfig`
return the product with that demand range. -/
theorem parseRange_keeps_written_order_witness :
    parseRange stodDigits ⟨"200".data ++ ',' :: " 100".data⟩ = Except.ok (200, 100) ∧
      parseLine stodDigits stoiDigits
          ⟨[], widgetGlobal, [], "Widget", { emptyProduct with name := "Widget" }⟩
          "  demand_range = 200, 100 " =
        Except.ok ⟨[], widgetGlobal, [], "Widget",
          { emptyProduct with name := "Widget", demandMin := 200, demandMax := 100 }⟩ ∧
      parseInputConfig stodDigits stoiDigits
          (some (["[Widget]", "product_name = Widget"] ++ ["  demand_range = 200, 100 "]))
          widgetGlobal [] widget =
        Except.ok ([{ emptyProduct with name := "Widget", demandMin := 200, demandMax := 100 }],
          widgetGlobal, []) :=
  have h := parseRange_keeps_written_order stodDigits stoiDigits "200" " 100" 200 100
    (by decide) (by decide) (by decide) (by decide) (by decide!) (by decide!)
  have hline := (h.2.1 ⟨[], widgetGlobal, [], "Widget", { emptyProduct with name := "Widget" }⟩
    "  demand_range = 200, 100 " "demand_range " " 200, 100" 200 100
    (by decide) (by decide) (by decide) (by decide) (by decide!)).1
    (by decide) (by decide)
  ⟨h.1.1, hline.2.2.1 (by decide),
    (h.2.2.1 ["[Widget]", "product_name = Widget"] "  demand_range = 200, 100 "
      widgetGlobal [] widget
      ⟨[], widgetGlobal, [], "Widget", { emptyProduct with name := "Widget" }⟩
      ⟨[], widgetGlobal, [], "Widget",
        { emptyProduct with name := "Widget", demandMin := 200, demandMax := 100 }⟩
      (by decide!) (hline.2.2.1 (by decide))).trans (by decide!)⟩

/-! ## C18: no guard on the rank in the weighting -/

/-- C18, as stated, fails: with the recognised objective (profit, maximize) of
rank 0 the run is not rejected; `main` goes through `solve`, hence through
`defineObjectiveFunction`, and exits with status 0. -/
theorem rank_zero_is_not_rejected :
    maximizeProfitRankZero.rank = 0 ∧ recognised maximizeProfitRankZero = true ∧
      (main (Except.ok ([widget], widgetGlobal, [maximizeProfitRankZero])) 'y'
        (fun _ => (0, [200]))).exitStatus = 0 ∧
      (main (Except.ok ([widget], widgetGlobal, [maximizeProfitRankZero])) 'y'
        (fun _ => (0, [200]))).solved ≠ none := by
  decide!

theorem main_ok (ps : List Product) (gc : GlobalConstraints) (objs : List Objective)
    (choice : Char) (primal : ClpSimplex → Int × List ℚ) :
    ((validateInput ps gc objs choice).result = false →
      main (Except.ok (ps, gc, objs)) choice primal =
        ⟨1, some (validateInput ps gc objs choice), none⟩) ∧
    ((validateInput ps gc objs choice).result = true →
      main (Except.ok (ps, gc, objs)) choice primal =
        ⟨0, some (validateInput ps gc objs choice),
          some (solve (Solver.new ps gc objs) primal)⟩) := by
  constructor <;> intro h <;> simp [main, h]

/-- C18, amended. `defineObjectiveFunction` has no guard on the rank: the exit
status of `main`, and whether it solves, are the same for every two objective
lists (with the same products, global constraints, answer and solver), so no
rank makes the run fail; and for a recognised objective of non-zero rank `r`
the weight the loop computes is `1 / r`. -/
theorem weighting_has_no_rank_guard (ps : List Product) (gc : GlobalConstraints)
    (objs objs2 : List Objective) (choice : Char) (primal : ClpSimplex → Int × List ℚ) :
    (main (Except.ok (ps, gc, objs)) choice primal).exitStatus =
        (main (Except.ok (ps, gc, objs2)) choice primal).exitStatus ∧
      ((main (Except.ok (ps, gc, objs)) choice primal).solved = none ↔
        (main (Except.ok (ps, gc, objs2)) choice primal).solved = none) ∧
      (∀ r : Int, r ≠ 0 →
        (computeWeights (objs ++ [⟨"profit", "maximize", r⟩])).weightProfit = 1 / (r : ℚ) ∧
          (computeWeights (objs ++ [⟨"resource_usage", "minimize", r⟩])).weightResource =
            1 / (r : ℚ) ∧
          (computeWeights (objs ++ [⟨"budget_usage", "maximize", r⟩])).weightBudget =
            1 / (r : ℚ)) := by
  have hv : validateInput ps gc objs choice = validateInput ps gc objs2 choice := rfl
  refine ⟨?_, ?_, fun r _ => ?_⟩
  · cases hres : (validateInput ps gc objs choice).result
    · rw [(main_ok ps gc objs choice primal).1 hres,
        (main_ok ps gc objs2 choice primal).1 (hv ▸ hres)]
    · rw [(main_ok ps gc objs choice primal).2 hres,
        (main_ok ps gc objs2 choice primal).2 (hv ▸ hres)]
  · cases hres : (validateInput ps gc objs choice).result
    · rw [(main_ok ps gc objs choice primal).1 hres,
        (main_ok ps gc objs2 choice primal).1 (hv ▸ hres)]
    · rw [(main_ok ps gc objs choice primal).2 hres,
        (main_ok ps gc objs2 choice primal).2 (hv ▸ hres)]
      simp
  · unfold computeWeights
    simp only [List.foldl_append, List.foldl_cons, List.foldl_nil, weightStep_weightProfit,
      weightStep_weightResource, weightStep_weightBudget, and_self, if_true]

/-! ## C19: the exit status -/

/-- C19, as stated, fails: in the Widget scenario validation passes, the
solver reports a failure (status 1, infeasible), and `main` still reports the
results table, validates the solution and exits with status 0. -/
theorem solver_failure_exits_zero :
    (validateInput [widget] widgetGlobal [maximizeProfit] 'y').result = true ∧
      (main (Except.ok ([widget], widgetGlobal, [maximizeProfit])) 'y'
        (fun _ => (1, [0]))).exitStatus = 0 ∧
      (main (Except.ok ([widget], widgetGlobal, [maximizeProfit])) 'y'
        (fun _ => (1, [0]))).solved =
          some (solve (Solver.new [widget] widgetGlobal [maximizeProfit])
            (fun _ => (1, [0]))) ∧
      (solve (Solver.new [widget] widgetGlobal [maximizeProfit])
        (fun _ => (1, [0]))).results.lines.length = 1 := by
  decide!

/-- C19, amended. When `parseInputConfig` throws, or `validateInput` returns
false, `main` exits with status 1 and no solve takes place; when
`validateInput` returns true it runs `solve` and exits with status 0, whatever
status the solver reports: `solve` drops the status, so its whole output is
the one it gives for status 0 with the same column solution. -/
theorem exit_status_policy :
    (∀ (e : String) (choice : Char) (primal : ClpSimplex → Int × List ℚ),
      (main (Except.error e) choice primal).exitStatus = 1 ∧
        (main (Except.error e) choice primal).solved = none) ∧
    (∀ (ps : List Product) (gc : GlobalConstraints) (objs : List Objective) (choice : Char)
        (primal : ClpSimplex → Int × List ℚ),
      (validateInput ps gc objs choice).result = false →
      (main (Except.ok (ps, gc, objs)) choice primal).exitStatus = 1 ∧
        (main (Except.ok (ps, gc, objs)) choice primal).solved = none) ∧
    (∀ (ps : List Product) (gc : GlobalConstraints) (objs : List Objective) (choice : Char)
        (primal : ClpSimplex → Int × List ℚ),
      (validateInput ps gc objs choice).result = true →
      (main (Except.ok (ps, gc, objs)) choice primal).exitStatus = 0 ∧
        (main (Except.ok (ps, gc, objs)) choice primal).solved =
          some (solve (Solver.new ps gc objs) primal)) ∧
    (∀ (s : Solver) (primal : ClpSimplex → Int × List ℚ),
      solve s primal = solve s (fun m => (0, (primal m).2))) := by
  refine ⟨fun e choice primal => ⟨rfl, rfl⟩, fun ps gc objs choice primal h => ?_,
    fun ps gc objs choice primal h => ?_, fun s primal => rfl⟩
  · rw [(main_ok ps gc objs choice primal).1 h]
    exact ⟨rfl, rfl⟩
  · rw [(main_ok ps gc objs choice primal).2 h]
    exact ⟨rfl, rfl⟩

/-- C19 amended, at an input: in the Widget scenario with a clean solve at
units = 200 validation passes and `main` exits with status 0 after the
solve. -/
theorem exit_status_policy_witness :
    (main (Except.ok ([widget], widgetGlobal, [maximizeProfit])) 'y'
        (fun _ => (0, [200]))).exitStatus = 0 ∧
      (main (Except.ok ([widget], widgetGlobal, [maximizeProfit])) 'y'
        (fun _ => (0, [200]))).solved =
          some (solve (Solver.new [widget] widgetGlobal [maximizeProfit])
            (fun _ => (0, [200]))) :=
  exit_status_policy.2.2.1 [widget] widgetGlobal [maximizeProfit] 'y' (fun _ => (0, [200]))
    (by decide!)

/-! ## Lemmas on the results table -/

theorem foldl_displayResultsStep (ps : List Product) (s : Solver) (sol : List ℚ)
    (st : DisplayState) (fc fm : Product → ℚ)
    (hc : ∀ j p, ps[j]? = some p → s.avgCosts.getD (st.index + j) 0 = fc p)
    (hm : ∀ j p, ps[j]? = some p → s.avgManHours.getD (st.index + j) 0 = fm p) :
    ps.foldl (displayResultsStep s sol) st =
      { index := st.index + ps.length
        totalProfit := st.totalProfit +
          ((List.enumFrom st.index ps).map (fun ip =>
            sol.getD ip.1 0 * fc ip.2 * (((ip.2.profitMin + ip.2.profitMax) / 2) / 100))).sum
        totalBudgetUsed := st.totalBudgetUsed +
          ((List.enumFrom st.index ps).map (fun ip => sol.getD ip.1 0 * fc ip.2)).sum
        totalManHoursUsed := st.totalManHoursUsed +
          ((List.enumFrom st.index ps).map (fun ip => sol.getD ip.1 0 * fm ip.2)).sum
        lines := st.lines ++
          (List.enumFrom st.index ps).map (fun ip =>
            (⟨ip.2.name, fc ip.2, (ip.2.profitMin + ip.2.profitMax) / 2,
              sol.getD ip.1 0 * fc ip.2 * (((ip.2.profitMin + ip.2.profitMax) / 2) / 100),
              sol.getD ip.1 0, sol.getD ip.1 0 * fm ip.2,
              sol.getD ip.1 0 * fc ip.2⟩ : ResultLine)) } := by
  induction ps generalizing st with
  | nil => simp
  | cons q rest ih =>
    have h0c := hc 0 q (by simp)
    have h0m := hm 0 q (by simp)
    simp only [Nat.add_zero] at h0c h0m
    have hstep : displayResultsStep s sol st q =
        { index := st.index + 1
          totalProfit := st.totalProfit +
            sol.getD st.index 0 * fc q * (((q.profitMin + q.profitMax) / 2) / 100)
          totalBudgetUsed := st.totalBudgetUsed + sol.getD st.index 0 * fc q
          totalManHoursUsed := st.totalManHoursUsed + sol.getD st.index 0 * fm q
          lines := st.lines ++
            [⟨q.name, fc q, (q.profitMin + q.profitMax) / 2,
              sol.getD st.index 0 * fc q * (((q.profitMin + q.profitMax) / 2) / 100),
              sol.getD st.index 0, sol.getD st.index 0 * fm q,
              sol.getD st.index 0 * fc q⟩] } := by
      unfold displayResultsStep
      dsimp only
      rw [h0c, h0m]
    rw [List.foldl_cons, hstep,
      ih _
        (fun j p hj => by
          have := hc (j + 1) p (by simpa using hj)
          rw [← this]
          congr 1
          dsimp only
          omega)
        (fun j p hj => by
          have := hm (j + 1) p (by simpa using hj)
          rw [← this]
          congr 1
          dsimp only
          omega)]
    simp only [List.enumFrom_cons, List.map_cons, List.sum_cons, List.append_assoc,
      List.singleton_append, List.length_cons, add_assoc]
    congr 1
    omega

/-- The results table `solve` reports, for a solver that leaves the column
solution `sol`. -/
theorem solve_results (s : Solver) (status : Int) (sol : List ℚ) :
    (solve s (fun _ => (status, sol))).results.lines =
        (List.enumFrom 0 s.products).map (fun ip =>
          (⟨ip.2.name, (ip.2.costMin + ip.2.costMax) / 2,
            (ip.2.profitMin + ip.2.profitMax) / 2,
            sol.getD ip.1 0 * ((ip.2.costMin + ip.2.costMax) / 2) *
              (((ip.2.profitMin + ip.2.profitMax) / 2) / 100),
            sol.getD ip.1 0,
            sol.getD ip.1 0 * ((ip.2.manHourPerUnitMin + ip.2.manHourPerUnitMax) / 2),
            sol.getD ip.1 0 * ((ip.2.costMin + ip.2.costMax) / 2)⟩ : ResultLine)) ∧
      (solve s (fun _ => (status, sol))).results.totalProfit =
        ((List.enumFrom 0 s.products).map (fun ip =>
          sol.getD ip.1 0 * ((ip.2.costMin + ip.2.costMax) / 2) *
            (((ip.2.profitMin + ip.2.profitMax) / 2) / 100))).sum := by
  have hf := solve_solver_fields s (fun _ => (status, sol))
  have hr : (solve s (fun _ => (status, sol))).results =
      displayResults (solve s (fun _ => (status, sol))).solver := rfl
  rw [hr]
  unfold displayResults
  dsimp only
  rw [foldl_displayResultsStep _ _ _ ⟨0, 0, 0, 0, []⟩
    (fun p => (p.costMin + p.costMax) / 2)
    (fun p => (p.manHourPerUnitMin + p.manHourPerUnitMax) / 2)
    (fun j p hj => by rw [hf.2.2.1, ← hf.1]; exact getD_map_of_getElem? _ _ j p hj)
    (fun j p hj => by rw [hf.2.2.2.1, ← hf.1]; exact getD_map_of_getElem? _ _ j p hj)]
  simp only [ClpSimplex.getColSolution, hf.1, hf.2.2.2.2, zero_add, List.nil_append,
    and_self]

/-- The sum of coefficient times value over the columns, as the objective
value takes it, is the sum over the products of value times coefficient, the
value of a product without an entry in the vector being 0. -/
theorem zip_sum_eq_enum (ps : List Product) (c : Product → ℚ) (sol : List ℚ) (k : Nat) :
    (((ps.map c).zip (sol.drop k)).map (fun cx => cx.1 * cx.2)).sum =
      ((List.enumFrom k ps).map (fun ip => sol.getD ip.1 0 * c ip.2)).sum := by
  induction ps generalizing k with
  | nil => simp
  | cons q rest ih =>
    have hrest := ih (k + 1)
    by_cases hk : k < sol.length
    · rw [List.drop_eq_getElem_cons hk]
      simp only [List.map_cons, List.zip_cons_cons, List.sum_cons, List.enumFrom_cons, hrest]
      have hg : sol.getD k 0 = sol[k] := by
        simp [List.getD_eq_getElem?_getD, hk]
      rw [hg, mul_comm]
    · have hd : sol.drop k = [] := List.drop_eq_nil_of_le (by omega)
      have hd1 : sol.drop (k + 1) = [] := List.drop_eq_nil_of_le (by omega)
      rw [hd1] at hrest
      have hg : sol.getD k 0 = 0 := by
        simp [List.getD_eq_getElem?_getD, List.getElem?_eq_none (not_lt.mp hk)]
      rw [hd]
      simp only [List.zip_nil_right, List.map_nil, List.sum_nil, List.enumFrom_cons,
        List.map_cons, List.sum_cons, hg, zero_mul, zero_add] at hrest ⊢
      exact hrest

/-! ## C21: the two forms of the profit value agree -/

/-- C21. For the i-th product and the solution vector the solver left: the
profit value `displayResults` reports is
`units * avgCost * (((profitMin + profitMax) / 2) / 100)`, the profit
coefficient `setupModel` stores is `avgCost * ((profitMin + profitMax) / 200)`,
the formula of the sensitivity analysis at delta 0 gives units times that
coefficient, and the two forms are equal; hence, when the weights are 1, 0, 0,
the objective value of the solution in the model equals the total profit
reported. -/
theorem profit_forms_agree (s : Solver) (status : Int) (sol : List ℚ) :
    (∀ (i : Nat) (p : Product), s.products[i]? = some p →
      ((solve s (fun _ => (status, sol))).results.lines[i]?).map (fun l => l.profitValue) =
          some (sol.getD i 0 * ((p.costMin + p.costMax) / 2) *
            (((p.profitMin + p.profitMax) / 2) / 100)) ∧
        (setupModel s).objectiveCoefficients[i]? =
          some ((p.costMin + p.costMax) / 2 * ((p.profitMin + p.profitMax) / 200)) ∧
        (sensitivityStep (solve s (fun _ => (status, sol))).solver 0 (i, []) p).2 =
          [(p.name, sol.getD i 0 *
            ((p.costMin + p.costMax) / 2 * ((p.profitMin + p.profitMax) / 200)))] ∧
        sol.getD i 0 * ((p.costMin + p.costMax) / 2) *
            (((p.profitMin + p.profitMax) / 2) / 100) =
          sol.getD i 0 *
            ((p.costMin + p.costMax) / 2 * ((p.profitMin + p.profitMax) / 200))) ∧
    (computeWeights s.objectives = ⟨1, 0, 0⟩ →
      (solve s (fun _ => (status, sol))).solver.model.objectiveValue sol =
        (solve s (fun _ => (status, sol))).results.totalProfit) := by
  have hf := solve_solver_fields s (fun _ => (status, sol))
  have hres := solve_results s status sol
  refine ⟨fun i p hp => ⟨?_, ?_, ?_, by ring⟩, fun hw => ?_⟩
  · rw [hres.1]
    simp [List.getElem?_map, List.getElem?_enumFrom, hp]
  · rw [setupModel_eq]
    simp [List.getElem?_map, hp]
  · have hc : (solve s (fun _ => (status, sol))).solver.avgCosts.getD i 0 =
        (p.costMin + p.costMax) / 2 := by
      rw [hf.2.2.1]
      have := getD_map_of_getElem? s.products (fun p => (p.costMin + p.costMax) / 2) i p hp
      simpa using this
    unfold sensitivityStep
    dsimp only
    rw [hc]
    simp only [ClpSimplex.getColSolution, hf.2.2.2.2, List.nil_append]
    congr 2
    ring
  · have hobj : (solve s (fun _ => (status, sol))).solver.model.objective =
        (defineObjectiveFunction (applyConstraints (setupModel s))).model.objective := rfl
    unfold ClpSimplex.objectiveValue
    rw [hobj, built_objective, hw, hres.2]
    have hz := zip_sum_eq_enum s.products
      (fun p => (p.costMin + p.costMax) / 2 * ((p.profitMin + p.profitMax) / 200)) sol 0
    simp only [List.drop_zero] at hz
    simp only [one_mul, zero_mul, sub_zero, add_zero]
    rw [hz]
    congr 1
    apply List.map_congr_left
    intro ip _
    ring

/-! ## C22: a point that satisfies every row is never flagged -/

theorem unitViolations_eq_nil (p : Product) (b m : ℚ)
    (hb : p.budgetMin ≤ b ∧ b ≤ p.budgetMax) (hm : m ≤ p.totalManHoursMax) :
    unitViolations p b m = [] := by
  unfold unitViolations
  rw [if_neg (by rw [not_or, not_lt, not_lt]; exact hb), if_neg (not_lt.mpr hm)]
  rfl

/-- C22. For every product sequence, global constraints and solution vector:
when the solution satisfies every row of the built model (the budget and labor
row of each product, the global budget row and the global labor row),
`validateSolution` reports no violation at all. -/
theorem feasible_rows_never_flagged (s : Solver) (status : Int) (sol : List ℚ)
    (hrows : ∀ r ∈ (solve s (fun _ => (status, sol))).solver.model.rows, r.satisfied sol) :
    (solve s (fun _ => (status, sol))).violations = [] := by
  have hmodel := (solve_solver_model s (fun _ => (status, sol))).1
  have hat := built_rows_at s
  rw [hmodel] at hrows
  have hbud := hrows _ (List.getElem?_mem hat.2.1)
  have hlab := hrows _ (List.getElem?_mem hat.2.2)
  unfold Row.satisfied at hbud hlab
  rw [activity_global_row] at hbud hlab
  dsimp only at hbud hlab
  rw [solve_violations, if_neg (not_lt.mpr hbud.2), if_neg (not_lt.mpr hlab.2),
    List.append_nil, List.append_nil, List.flatMap_eq_nil_iff]
  rintro ⟨i, p⟩ hip
  have hp : s.products[i]? = some p := by
    have := (List.mk_mem_enumFrom_iff_le_and_getElem?_sub.mp hip).2
    simpa using this
  have h1 := hrows _ (List.getElem?_mem (hat.1 i p hp).1)
  have h2 := hrows _ (List.getElem?_mem (hat.1 i p hp).2)
  unfold Row.satisfied at h1 h2
  rw [activity_single_row] at h1 h2
  dsimp only at h1 h2
  exact unitViolations_eq_nil p _ _ h1 h2.2

/-- C22, at the scenario: in the Widget scenario units = 200 satisfies the
four rows of the built model, and nothing is reported for it. -/
theorem feasible_rows_never_flagged_witness :
    (∀ r ∈ (solve (Solver.new [widget] widgetGlobal [maximizeProfit])
        (fun _ => (0, [200]))).solver.model.rows, r.satisfied [200]) ∧
      (solve (Solver.new [widget] widgetGlobal [maximizeProfit])
        (fun _ => (0, [200]))).violations = [] :=
  ⟨by decide!,
    feasible_rows_never_flagged (Solver.new [widget] widgetGlobal [maximizeProfit]) 0 [200]
      (by decide!)⟩

end MaxProfit
